import Mathlib

/-!
Shallow embedding of the EduBuddy real-time collaboration relay
(`setupWebSocket` in the repository's websocket module).

The relay keeps three pieces of mutable state:
  * `rooms`: a JS `Map<string, Room>` from room id to the room's
    participant map (`Map<number, WebSocket>`, user id to socket);
  * `connections`: a JS `Set<WebSocket>` of live sockets;
  * per-connection closure variables `userId` and `currentRoomId`
    (initially `null`), plus the heartbeat interval timer.

JavaScript `Map` keys here can be `undefined` when a client frame omits a
field (`JSON.parse` performs no schema validation), so room keys are
modelled as `Option String` and user-id keys as `Option Nat`, with `none`
standing for a missing (`undefined`) field.  JS truthiness matters: the
guards `if (!currentRoomId || !userId)` and `if (currentRoomId && userId)`
treat the number `0` and the empty string as false, which is modelled
explicitly (`truthyNum`, `truthyStr`).

Connections are identified by natural numbers.  A socket's
`readyState === WebSocket.OPEN` test is the Boolean `readyStateOpen`.
`send` can throw for a broken peer; each event carries the list `fails` of
connection ids whose `send` throws during that event.  Per the source:
  * the `code_update` / `cursor_update` fan-out wraps each `send` in its
    own try/catch (failure logged, loop continues);
  * the `join_room` notification loop has no per-recipient try/catch, so a
    throw escapes to the message handler's outer catch;
  * the close handler's synthesized `leave_room` loop has no try/catch at
    all, so a throw aborts the remaining sends.
-/

/-- JS truthiness of a `number | null | undefined` value: `null`,
`undefined` and `0` are falsy. -/
def truthyNum : Option Nat → Bool
  | none => false
  | some n => decide (n ≠ 0)

/-- JS truthiness of a `string | null | undefined` value: `null`,
`undefined` and the empty string are falsy. -/
def truthyStr : Option String → Bool
  | none => false
  | some s => decide (s ≠ "")

/-- JS `Map.prototype.set`: replace in place if the key is present
(insertion order is preserved), otherwise append at the end. -/
def mapSet {α β : Type} [DecidableEq α] : List (α × β) → α → β → List (α × β)
  | [], k, v => [(k, v)]
  | (k', v') :: rest, k, v =>
    if k' = k then (k, v) :: rest else (k', v') :: mapSet rest k v

/-- JS `Map.prototype.delete`: drop every entry with the given key
(at most one exists in maps built by `mapSet`). -/
def mapDelete {α β : Type} [DecidableEq α] (m : List (α × β)) (k : α) : List (α × β) :=
  m.filter (fun p => decide (p.1 ≠ k))

/-- JS `Map.prototype.get` (with `undefined` as `none`). -/
def mapLookup {α β : Type} [DecidableEq α] (m : List (α × β)) (k : α) : Option β :=
  (m.find? (fun p => decide (p.1 = k))).map (fun p => p.2)

/-- JS `Map.prototype.has`. -/
def mapHas {α β : Type} [DecidableEq α] (m : List (α × β)) (k : α) : Bool :=
  (mapLookup m k).isSome

/-- One inbound frame as the handler sees it after `JSON.parse`.
`badFrame` is an unparseable frame (`JSON.parse` throws); `unknownType` is
parseable JSON whose `type` is missing or matches no `case` of the switch.
Field values are `none` when the corresponding JSON field is absent. -/
inductive ClientFrame : Type where
  | joinRoom (roomId : Option String) (userId : Option Nat) (username : Option String)
  | codeUpdate (roomId : Option String) (userId : Option Nat) (content : Option String)
  | cursorUpdate (roomId : Option String) (userId : Option Nat) (line column : Option Nat)
  | leaveRoom (roomId : Option String) (userId : Option Nat)
  | unknownType
  | badFrame
deriving Repr, DecidableEq

/-- A server-originated payload. `echoed` is the verbatim
`JSON.stringify(message)` rebroadcast of a `code_update` / `cursor_update`
frame; `errorNote` is the catch block's error object. -/
inductive OutMsg : Type where
  | joinNote (roomId : Option String) (userId : Option Nat) (username : Option String)
  | leaveNote (roomId : Option String) (userId : Option Nat)
  | echoed (frame : ClientFrame)
  | errorNote
deriving Repr, DecidableEq

/-- One observable send attempt. `sent`/`sendFailed` are broadcast-loop
attempts recording the participant-map key they were addressed through;
`sentDirect`/`sendFailedDirect` are the catch block's `ws.send` on the
originating connection. A `Failed` variant means the `send` call threw. -/
inductive Out : Type where
  | sent (key : Option Nat) (target : Nat) (msg : OutMsg)
  | sendFailed (key : Option Nat) (target : Nat) (msg : OutMsg)
  | sentDirect (target : Nat) (msg : OutMsg)
  | sendFailedDirect (target : Nat) (msg : OutMsg)
deriving Repr, DecidableEq

/-- Per-connection handler closure state plus socket transport state:
the closure variables `userId` and `currentRoomId`, whether the heartbeat
`setInterval` timer is still running, and whether
`readyState === WebSocket.OPEN`. -/
structure ConnInfo : Type where
  userId : Option Nat
  currentRoomId : Option String
  pingIntervalActive : Bool
  readyStateOpen : Bool
deriving Repr, DecidableEq

/-- The whole relay state: the `rooms` map (room id to participant map,
participant map being user id to connection), the `connections` set, the
per-connection closure states, and the two modelled `lastStats` counters
(`lastPingTime` is wall-clock time and is not modelled). -/
structure ServerState : Type where
  rooms : List (Option String × List (Option Nat × Nat))
  connections : List Nat
  conns : List (Nat × ConnInfo)
  statsConnections : Nat
  statsRooms : Nat
deriving Repr, DecidableEq

/-- State of a connection id that never connected: no closure variables,
no timer, not open. -/
def defaultConnInfo : ConnInfo :=
  { userId := none, currentRoomId := none
    pingIntervalActive := false, readyStateOpen := false }

/-- The closure/transport state of connection `c`. -/
def getConn (s : ServerState) (c : Nat) : ConnInfo :=
  (mapLookup s.conns c).getD defaultConnInfo

/-- Replace the closure/transport state of connection `c`. -/
def setConn (s : ServerState) (c : Nat) (i : ConnInfo) : ServerState :=
  { s with conns := mapSet s.conns c i }

/-- The `participant.readyState === WebSocket.OPEN` test for connection `c`. -/
def connOpen (s : ServerState) (c : Nat) : Bool :=
  (getConn s c).readyStateOpen

/-- The `join_room` notification loop: skip the entry whose key equals the
sender's just-bound `userId` and entries whose socket is not open;
otherwise attempt the send.  There is no per-recipient try/catch: a send
failure throws, so the Boolean result records that the loop aborted and
the exception escaped to the message handler's outer catch. -/
def broadcastJoin (s : ServerState) (parts : List (Option Nat × Nat))
    (exclude : Option Nat) (fails : List Nat) (m : OutMsg) : List Out × Bool :=
  match parts with
  | [] => ([], false)
  | (k, target) :: rest =>
    if k ≠ exclude ∧ connOpen s target = true then
      if target ∈ fails then ([Out.sendFailed k target m], true)
      else
        let r := broadcastJoin s rest exclude fails m
        (Out.sent k target m :: r.1, r.2)
    else broadcastJoin s rest exclude fails m

/-- The `code_update` / `cursor_update` fan-out loop: same skip conditions,
but every send is wrapped in its own try/catch, so a failure is recorded
and the loop continues with the next participant. -/
def broadcastCaught (s : ServerState) (parts : List (Option Nat × Nat))
    (exclude : Option Nat) (fails : List Nat) (m : OutMsg) : List Out :=
  match parts with
  | [] => []
  | (k, target) :: rest =>
    if k ≠ exclude ∧ connOpen s target = true then
      (if target ∈ fails then Out.sendFailed k target m else Out.sent k target m)
        :: broadcastCaught s rest exclude fails m
    else broadcastCaught s rest exclude fails m

/-- The close handler's synthesized `leave_room` loop: no key exclusion
(the departed entry was already deleted), only the open-socket guard, and
no try/catch, so a send failure aborts the remaining sends. -/
def broadcastLeave (s : ServerState) (parts : List (Option Nat × Nat))
    (fails : List Nat) (m : OutMsg) : List Out × Bool :=
  match parts with
  | [] => ([], false)
  | (k, target) :: rest =>
    if connOpen s target = true then
      if target ∈ fails then ([Out.sendFailed k target m], true)
      else
        let r := broadcastLeave s rest fails m
        (Out.sent k target m :: r.1, r.2)
    else broadcastLeave s rest fails m

/-- The message handler's catch block: if the originating socket is open,
send one error object back to it (this send itself may throw, in which
case the exception leaves the handler with nothing further to run). -/
def catchReply (s : ServerState) (c : Nat) (fails : List Nat)
    (outsSoFar : List Out) : ServerState × List Out :=
  if connOpen s c = true then
    if c ∈ fails then (s, outsSoFar ++ [Out.sendFailedDirect c OutMsg.errorNote])
    else (s, outsSoFar ++ [Out.sentDirect c OutMsg.errorNote])
  else (s, outsSoFar)

/-- The `join_room` case: bind the closure variables from the frame,
create the room if absent, insert/replace the user's entry, then notify
the rest of the room (a send failure escapes to the outer catch, after the
state mutations have already happened). -/
def handleJoin (s : ServerState) (c : Nat) (rid : Option String)
    (uid : Option Nat) (uname : Option String) (fails : List Nat) :
    ServerState × List Out :=
  let info := getConn s c
  let s1 := setConn s c { info with userId := uid, currentRoomId := rid }
  let parts0 := (mapLookup s1.rooms rid).getD []
  let parts1 := mapSet parts0 uid c
  let s2 := { s1 with rooms := mapSet s1.rooms rid parts1 }
  let r := broadcastJoin s2 parts1 uid fails (OutMsg.joinNote rid uid uname)
  if r.2 then catchReply s2 c fails r.1 else (s2, r.1)

/-- The `code_update` and `cursor_update` cases (identical logic in the
source, differing only in log strings): drop the frame unless the closure
variables are truthy and the bound room exists, otherwise rebroadcast the
raw frame to the rest of the room with per-recipient error handling. -/
def handleUpdate (s : ServerState) (c : Nat) (f : ClientFrame)
    (fails : List Nat) : ServerState × List Out :=
  let info := getConn s c
  if truthyStr info.currentRoomId = false ∨ truthyNum info.userId = false then (s, [])
  else
    match mapLookup s.rooms info.currentRoomId with
    | none => (s, [])
    | some parts => (s, broadcastCaught s parts info.userId fails (OutMsg.echoed f))

/-- The whole `message` event handler: parse (a `badFrame` throws straight
into the catch block), then dispatch on `message.type`; `leave_room` and
unknown types match no `case` and fall through silently. -/
def handleMessage (s : ServerState) (c : Nat) (f : ClientFrame)
    (fails : List Nat) : ServerState × List Out :=
  match f with
  | ClientFrame.joinRoom rid uid uname => handleJoin s c rid uid uname fails
  | ClientFrame.codeUpdate _ _ _ => handleUpdate s c f fails
  | ClientFrame.cursorUpdate _ _ _ _ => handleUpdate s c f fails
  | ClientFrame.leaveRoom _ _ => (s, [])
  | ClientFrame.unknownType => (s, [])
  | ClientFrame.badFrame => catchReply s c fails []

/-- The `connection` handler: add the socket to the registry, start the
heartbeat timer, initialize the closure variables to `null`, update the
stats counters. -/
def handleConnect (s : ServerState) (c : Nat) : ServerState × List Out :=
  let s1 := { s with connections :=
    if c ∈ s.connections then s.connections else s.connections ++ [c] }
  let s2 := setConn s1 c
    { userId := none, currentRoomId := none
      pingIntervalActive := true, readyStateOpen := true }
  ({ s2 with statsConnections := s2.connections.length
             statsRooms := s2.rooms.length }, [])

/-- Net effect of the close handler's unconditional first statements (and
of the transport moving the socket out of the OPEN state before the
handler runs): `connections.delete(ws)`, `clearInterval(pingInterval)`,
`lastStats.totalConnections = connections.size`.  The two consecutive
updates of the connection's record collapse into one `mapSet`. -/
def closePrelude (s : ServerState) (c : Nat) : ServerState :=
  { rooms := s.rooms
    connections := s.connections.filter (fun x => decide (x ≠ c))
    conns := mapSet s.conns c
      { getConn s c with readyStateOpen := false, pingIntervalActive := false }
    statsConnections := (s.connections.filter (fun x => decide (x ≠ c))).length
    statsRooms := s.statsRooms }

/-- The close handler's room phase, run on the prelude's result state:
when both closure variables are truthy and the bound room exists, delete
the user's entry; delete the room if the mapping became empty, otherwise
broadcast the synthesized `leave_room` to the remaining participants.
The Boolean records whether a broadcast send threw (aborting the handler
before the final stats assignment). -/
def closeRoomPhase (s : ServerState) (c : Nat) (fails : List Nat) :
    (ServerState × List Out) × Bool :=
  let info := getConn s c
  if truthyStr info.currentRoomId = true ∧ truthyNum info.userId = true then
    match mapLookup s.rooms info.currentRoomId with
    | none => ((s, []), false)
    | some parts =>
      let parts1 := mapDelete parts info.userId
      if parts1.length = 0 then
        (({ s with rooms := mapDelete s.rooms info.currentRoomId }, []), false)
      else
        let s4 := { s with rooms := mapSet s.rooms info.currentRoomId parts1 }
        let r := broadcastLeave s4 parts1 fails
          (OutMsg.leaveNote info.currentRoomId info.userId)
        ((s4, r.1), r.2)
  else ((s, []), false)

/-- The `close` event handler: the unconditional cleanup, then the room
phase; when no broadcast send threw, the handler's last statement updates
the active-room stat. -/
def handleClose (s : ServerState) (c : Nat) (fails : List Nat) :
    ServerState × List Out :=
  let res := closeRoomPhase (closePrelude s c) c fails
  if res.2 then res.1
  else ({ res.1.1 with statsRooms := res.1.1.rooms.length }, res.1.2)

/-- The `error` event handler: remove the socket from the registry, cancel
the heartbeat timer, update the connection-count stat — and nothing else
(no room leave, no broadcast). -/
def handleError (s : ServerState) (c : Nat) : ServerState × List Out :=
  let s1 := { s with connections := s.connections.filter (fun x => decide (x ≠ c)) }
  let s2 := setConn s1 c { getConn s1 c with pingIntervalActive := false }
  ({ s2 with statsConnections := s2.connections.length }, [])

/-- One heartbeat tick: if the timer is running and the socket is open,
`ws.ping()` is attempted; a throwing ping is caught and answered with
`ws.terminate()`, which tears the socket down (its close event follows
separately). -/
def handlePingTick (s : ServerState) (c : Nat) (pingThrows : Bool) :
    ServerState × List Out :=
  let info := getConn s c
  if info.pingIntervalActive = true ∧ info.readyStateOpen = true then
    if pingThrows then (setConn s c { info with readyStateOpen := false }, [])
    else (s, [])
  else (s, [])

/-- Environment events driving the relay: socket accept, one inbound
frame (with the set of peers whose `send` would throw), socket close (the
transport event, running the close handler), a transport error event, a
heartbeat timer tick, and the transport-level transition of a socket out
of the OPEN state before its close event has been handled (a peer may
disconnect while still being iterated for delivery). -/
inductive Event : Type where
  | connect (c : Nat)
  | message (c : Nat) (frame : ClientFrame) (fails : List Nat)
  | closeEv (c : Nat) (fails : List Nat)
  | errorEv (c : Nat)
  | pingTick (c : Nat) (pingThrows : Bool)
  | closing (c : Nat)
deriving Repr

/-- One step of the relay: dispatch the event to its handler. -/
def step (s : ServerState) (e : Event) : ServerState × List Out :=
  match e with
  | Event.connect c => handleConnect s c
  | Event.message c f fails => handleMessage s c f fails
  | Event.closeEv c fails => handleClose s c fails
  | Event.errorEv c => handleError s c
  | Event.pingTick c b => handlePingTick s c b
  | Event.closing c => (setConn s c { getConn s c with readyStateOpen := false }, [])

/-- The state after an event (discarding the sends). -/
def stepState (s : ServerState) (e : Event) : ServerState := (step s e).1

/-- The sends performed while handling an event. -/
def stepOut (s : ServerState) (e : Event) : List Out := (step s e).2

/-- The relay's state right after `setupWebSocket`: no rooms, no
connections. -/
def initState : ServerState :=
  { rooms := [], connections := [], conns := []
    statsConnections := 0, statsRooms := 0 }

/-- The state reached by a sequence of events from startup. -/
def run (tr : List Event) : ServerState := tr.foldl stepState initState

/-! ## Basic facts about the JS `Map` model -/

section MapLemmas

variable {α β : Type} [DecidableEq α]

theorem mapSet_ne_nil (m : List (α × β)) (k : α) (v : β) : mapSet m k v ≠ [] := by
  cases m with
  | nil => simp [mapSet]
  | cons p rest =>
    obtain ⟨k', v'⟩ := p
    simp only [mapSet]
    split <;> simp

theorem mapLookup_nil (k : α) : mapLookup ([] : List (α × β)) k = none := by
  simp [mapLookup]

theorem mapLookup_cons_self (k : α) (v : β) (rest : List (α × β)) :
    mapLookup ((k, v) :: rest) k = some v := by
  simp [mapLookup, List.find?_cons_of_pos]

theorem mapLookup_cons_ne (ka k : α) (hk : ka ≠ k) (va : β) (rest : List (α × β)) :
    mapLookup ((ka, va) :: rest) k = mapLookup rest k := by
  unfold mapLookup
  rw [List.find?_cons_of_neg]
  simp [hk]

theorem mapLookup_mapSet_self (m : List (α × β)) (k : α) (v : β) :
    mapLookup (mapSet m k v) k = some v := by
  induction m with
  | nil => simp [mapSet, mapLookup_cons_self]
  | cons p rest ih =>
    obtain ⟨ka, va⟩ := p
    simp only [mapSet]
    by_cases h : ka = k
    · simp [h, mapLookup_cons_self]
    · rw [if_neg h, mapLookup_cons_ne ka k h]
      exact ih

theorem mapLookup_mapSet_ne (m : List (α × β)) (k k' : α) (v : β) (h : k' ≠ k) :
    mapLookup (mapSet m k v) k' = mapLookup m k' := by
  induction m with
  | nil =>
    simp only [mapSet]
    rw [mapLookup_cons_ne k k' (Ne.symm h)]
  | cons p rest ih =>
    obtain ⟨ka, va⟩ := p
    simp only [mapSet]
    by_cases hk : ka = k
    · subst hk
      rw [if_pos rfl, mapLookup_cons_ne ka k' (Ne.symm h),
        mapLookup_cons_ne ka k' (Ne.symm h)]
    · rw [if_neg hk]
      by_cases hk' : ka = k'
      · subst hk'
        rw [mapLookup_cons_self, mapLookup_cons_self]
      · rw [mapLookup_cons_ne ka k' hk', mapLookup_cons_ne ka k' hk']
        exact ih

theorem mem_mapSet (m : List (α × β)) (k : α) (v : β) (p : α × β)
    (hp : p ∈ mapSet m k v) : p ∈ m ∨ p = (k, v) := by
  induction m with
  | nil => simp [mapSet] at hp; simp [hp]
  | cons q rest ih =>
    obtain ⟨ka, va⟩ := q
    simp only [mapSet] at hp
    by_cases hk : ka = k
    · rw [if_pos hk] at hp
      rcases List.mem_cons.mp hp with h | h
      · right; exact h
      · left; exact List.mem_cons_of_mem _ h
    · rw [if_neg hk] at hp
      rcases List.mem_cons.mp hp with h | h
      · left; exact h ▸ List.mem_cons_self _ _
      · rcases ih h with h1 | h1
        · left; exact List.mem_cons_of_mem _ h1
        · right; exact h1

theorem mapLookup_eq_none_iff (m : List (α × β)) (k : α) :
    mapLookup m k = none ↔ k ∉ m.map Prod.fst := by
  induction m with
  | nil => simp [mapLookup_nil]
  | cons q rest ih =>
    obtain ⟨ka, va⟩ := q
    by_cases hk : ka = k
    · subst hk
      rw [mapLookup_cons_self]
      simp
    · rw [mapLookup_cons_ne ka k hk]
      simp only [List.map_cons, List.mem_cons]
      rw [ih]
      constructor
      · intro h1 h2
        rcases h2 with h2 | h2
        · exact hk h2.symm
        · exact h1 h2
      · intro h1 h2
        exact h1 (Or.inr h2)

theorem mapSet_keys_of_present (m : List (α × β)) (k : α) (v : β)
    (h : mapLookup m k ≠ none) :
    (mapSet m k v).map Prod.fst = m.map Prod.fst := by
  induction m with
  | nil => exact absurd (mapLookup_nil k) h
  | cons q rest ih =>
    obtain ⟨ka, va⟩ := q
    simp only [mapSet]
    by_cases hk : ka = k
    · simp [hk]
    · rw [if_neg hk]
      simp only [List.map_cons, List.cons.injEq, true_and]
      apply ih
      rw [mapLookup_cons_ne ka k hk] at h
      exact h

theorem mapSet_keys_of_absent (m : List (α × β)) (k : α) (v : β)
    (h : mapLookup m k = none) :
    (mapSet m k v).map Prod.fst = m.map Prod.fst ++ [k] := by
  induction m with
  | nil => simp [mapSet]
  | cons q rest ih =>
    obtain ⟨ka, va⟩ := q
    simp only [mapSet]
    by_cases hk : ka = k
    · subst hk
      rw [mapLookup_cons_self] at h
      exact absurd h (by simp)
    · rw [if_neg hk]
      simp only [List.map_cons, List.cons_append, List.cons.injEq, true_and]
      apply ih
      rw [mapLookup_cons_ne ka k hk] at h
      exact h

theorem mapSet_keys_nodup (m : List (α × β)) (k : α) (v : β)
    (h : (m.map Prod.fst).Nodup) : ((mapSet m k v).map Prod.fst).Nodup := by
  cases hl : mapLookup m k with
  | none =>
    rw [mapSet_keys_of_absent m k v hl]
    have hk : k ∉ m.map Prod.fst := (mapLookup_eq_none_iff m k).mp hl
    simp only [List.nodup_append, h, List.nodup_cons, List.not_mem_nil,
      not_false_iff, List.nodup_nil, and_true, true_and]
    intro a ha
    simp only [List.mem_singleton]
    intro hak
    exact hk (hak ▸ ha)
  | some v' =>
    rw [mapSet_keys_of_present m k v (by simp [hl])]
    exact h

theorem mem_mapDelete (m : List (α × β)) (k : α) (p : α × β) :
    p ∈ mapDelete m k ↔ p ∈ m ∧ p.1 ≠ k := by
  simp [mapDelete, List.mem_filter]

theorem mapLookup_mapDelete_self (m : List (α × β)) (k : α) :
    mapLookup (mapDelete m k) k = none := by
  rw [mapLookup_eq_none_iff]
  intro hmem
  rcases List.mem_map.mp hmem with ⟨p, hp, hfst⟩
  rcases (mem_mapDelete m k p).mp hp with ⟨_, hne⟩
  exact hne hfst

theorem mapDelete_nil (k : α) : mapDelete ([] : List (α × β)) k = [] := rfl

theorem mapDelete_cons_self (k : α) (va : β) (rest : List (α × β)) :
    mapDelete ((k, va) :: rest) k = mapDelete rest k := by
  simp [mapDelete, List.filter_cons]

theorem mapDelete_cons_ne (ka k : α) (hk : ka ≠ k) (va : β) (rest : List (α × β)) :
    mapDelete ((ka, va) :: rest) k = (ka, va) :: mapDelete rest k := by
  simp [mapDelete, List.filter_cons, hk]

theorem mapLookup_mapDelete_ne (m : List (α × β)) (k k' : α) (h : k' ≠ k) :
    mapLookup (mapDelete m k) k' = mapLookup m k' := by
  induction m with
  | nil => rw [mapDelete_nil]
  | cons q rest ih =>
    obtain ⟨ka, va⟩ := q
    by_cases hk : ka = k
    · subst hk
      rw [mapDelete_cons_self, mapLookup_cons_ne ka k' (Ne.symm h)]
      exact ih
    · rw [mapDelete_cons_ne ka k hk]
      by_cases hk' : ka = k'
      · subst hk'
        rw [mapLookup_cons_self, mapLookup_cons_self]
      · rw [mapLookup_cons_ne ka k' hk', mapLookup_cons_ne ka k' hk']
        exact ih

theorem mapDelete_sublist (m : List (α × β)) (k : α) :
    (mapDelete m k).Sublist m := List.filter_sublist m

theorem mapDelete_keys_nodup (m : List (α × β)) (k : α)
    (h : (m.map Prod.fst).Nodup) : ((mapDelete m k).map Prod.fst).Nodup :=
  List.Nodup.sublist (List.Sublist.map Prod.fst (mapDelete_sublist m k)) h

theorem mapLookup_mem (m : List (α × β)) (k : α) (v : β)
    (h : mapLookup m k = some v) : (k, v) ∈ m := by
  induction m with
  | nil => rw [mapLookup_nil] at h; exact absurd h (by simp)
  | cons q rest ih =>
    obtain ⟨ka, va⟩ := q
    by_cases hk : ka = k
    · subst hk
      rw [mapLookup_cons_self] at h
      have hv : va = v := by simpa using h
      exact hv ▸ List.mem_cons_self _ _
    · rw [mapLookup_cons_ne ka k hk] at h
      exact List.mem_cons_of_mem _ (ih h)

theorem mem_mapLookup (m : List (α × β)) (k : α) (v : β)
    (hnd : (m.map Prod.fst).Nodup) (h : (k, v) ∈ m) : mapLookup m k = some v := by
  induction m with
  | nil => simp at h
  | cons q rest ih =>
    obtain ⟨ka, va⟩ := q
    simp only [List.map_cons, List.nodup_cons] at hnd
    rcases List.mem_cons.mp h with h1 | h1
    · have hk : ka = k := by simpa using congrArg Prod.fst h1.symm
      have hv : va = v := by simpa using congrArg Prod.snd h1.symm
      subst hk
      rw [mapLookup_cons_self, hv]
    · have hk : ka ≠ k := by
        intro hh
        exact hnd.1 (by simpa [hh] using List.mem_map_of_mem Prod.fst h1)
      rw [mapLookup_cons_ne ka k hk]
      exact ih hnd.2 h1

theorem mapDelete_length (m : List (α × β)) (k : α)
    (hnd : (m.map Prod.fst).Nodup) (h : k ∈ m.map Prod.fst) :
    (mapDelete m k).length + 1 = m.length := by
  induction m with
  | nil => simp at h
  | cons q rest ih =>
    obtain ⟨ka, va⟩ := q
    simp only [List.map_cons, List.nodup_cons] at hnd
    by_cases hk : ka = k
    · subst hk
      have hdel : mapDelete rest ka = rest := by
        apply List.filter_eq_self.mpr
        intro p hp
        simp only [decide_eq_true_eq]
        intro hh
        exact hnd.1 (by simpa [hh] using List.mem_map_of_mem Prod.fst hp)
      rw [mapDelete_cons_self, hdel, List.length_cons]
    · rcases List.mem_cons.mp h with h1 | h1
      · exact absurd h1.symm hk
      · rw [mapDelete_cons_ne ka k hk, List.length_cons, List.length_cons]
        have := ih hnd.2 h1
        omega
end MapLemmas

/-! ## Component lemmas about the state operations -/

theorem setConn_rooms (s : ServerState) (c : Nat) (i : ConnInfo) :
    (setConn s c i).rooms = s.rooms := rfl

theorem setConn_connections (s : ServerState) (c : Nat) (i : ConnInfo) :
    (setConn s c i).connections = s.connections := rfl

theorem getConn_setConn_self (s : ServerState) (c : Nat) (i : ConnInfo) :
    getConn (setConn s c i) c = i := by
  simp [getConn, setConn, mapLookup_mapSet_self]

theorem getConn_setConn_ne (s : ServerState) (c c' : Nat) (i : ConnInfo)
    (h : c' ≠ c) : getConn (setConn s c i) c' = getConn s c' := by
  simp [getConn, setConn, mapLookup_mapSet_ne _ _ _ _ h]

/-- The catch block never changes the state. -/
theorem catchReply_fst (s : ServerState) (c : Nat) (fails : List Nat)
    (outs : List Out) : (catchReply s c fails outs).1 = s := by
  unfold catchReply
  split_ifs <;> rfl

/-- The update handler never changes the state. -/
theorem handleUpdate_fst (s : ServerState) (c : Nat) (f : ClientFrame)
    (fails : List Nat) : (handleUpdate s c f fails).1 = s := by
  simp only [handleUpdate]
  split
  · rfl
  · split <;> rfl

/-- The state after a `join_room`: closure variables rebound, the user's
entry inserted (replacing any previous entry under that user id) into the
bound room, the room being created first when absent. -/
theorem handleJoin_fst (s : ServerState) (c : Nat) (rid : Option String)
    (uid : Option Nat) (uname : Option String) (fails : List Nat) :
    (handleJoin s c rid uid uname fails).1 =
      { setConn s c { getConn s c with userId := uid, currentRoomId := rid } with
        rooms := mapSet s.rooms rid
          (mapSet ((mapLookup s.rooms rid).getD []) uid c) } := by
  simp only [handleJoin]
  split
  · rw [catchReply_fst]
    rfl
  · rfl

/-! ## Broadcast loop lemmas -/

/-- Everything the `join_room` loop emits is a loop send of the broadcast
payload, addressed through a participant entry whose key differs from the
excluded user id. -/
theorem broadcastJoin_mem (s : ServerState) (parts : List (Option Nat × Nat))
    (exclude : Option Nat) (fails : List Nat) (m : OutMsg) (o : Out)
    (ho : o ∈ (broadcastJoin s parts exclude fails m).1) :
    ∃ k t, (o = Out.sent k t m ∨ o = Out.sendFailed k t m) ∧
      k ≠ exclude ∧ (k, t) ∈ parts ∧ connOpen s t = true := by
  induction parts with
  | nil => simp [broadcastJoin] at ho
  | cons p rest ih =>
    obtain ⟨k, t⟩ := p
    simp only [broadcastJoin] at ho
    split at ho
    · rename_i hg
      split at ho
      · simp only [List.mem_singleton] at ho
        exact ⟨k, t, Or.inr ho, hg.1, List.mem_cons_self _ _, hg.2⟩
      · rcases List.mem_cons.mp ho with h1 | h1
        · exact ⟨k, t, Or.inl h1, hg.1, List.mem_cons_self _ _, hg.2⟩
        · rcases ih h1 with ⟨k', t', h2, h3, h4, h5⟩
          exact ⟨k', t', h2, h3, List.mem_cons_of_mem _ h4, h5⟩
    · rcases ih ho with ⟨k', t', h2, h3, h4, h5⟩
      exact ⟨k', t', h2, h3, List.mem_cons_of_mem _ h4, h5⟩

/-- Everything the `code_update` / `cursor_update` loop emits is a loop
send of the payload, addressed through an entry whose key differs from the
excluded user id. -/
theorem broadcastCaught_mem (s : ServerState) (parts : List (Option Nat × Nat))
    (exclude : Option Nat) (fails : List Nat) (m : OutMsg) (o : Out)
    (ho : o ∈ broadcastCaught s parts exclude fails m) :
    ∃ k t, (o = Out.sent k t m ∨ o = Out.sendFailed k t m) ∧
      k ≠ exclude ∧ (k, t) ∈ parts ∧ connOpen s t = true := by
  induction parts with
  | nil => simp [broadcastCaught] at ho
  | cons p rest ih =>
    obtain ⟨k, t⟩ := p
    simp only [broadcastCaught] at ho
    split at ho
    · rename_i hg
      rcases List.mem_cons.mp ho with h1 | h1
      · refine ⟨k, t, ?_, hg.1, List.mem_cons_self _ _, hg.2⟩
        subst h1
        split <;> simp
      · rcases ih h1 with ⟨k', t', h2, h3, h4, h5⟩
        exact ⟨k', t', h2, h3, List.mem_cons_of_mem _ h4, h5⟩
    · rcases ih ho with ⟨k', t', h2, h3, h4, h5⟩
      exact ⟨k', t', h2, h3, List.mem_cons_of_mem _ h4, h5⟩

/-- Everything the synthesized `leave_room` loop emits is a loop send of
the payload, addressed through one of the remaining entries. -/
theorem broadcastLeave_mem (s : ServerState) (parts : List (Option Nat × Nat))
    (fails : List Nat) (m : OutMsg) (o : Out)
    (ho : o ∈ (broadcastLeave s parts fails m).1) :
    ∃ k t, (o = Out.sent k t m ∨ o = Out.sendFailed k t m) ∧
      (k, t) ∈ parts ∧ connOpen s t = true := by
  induction parts with
  | nil => simp [broadcastLeave] at ho
  | cons p rest ih =>
    obtain ⟨k, t⟩ := p
    simp only [broadcastLeave] at ho
    split at ho
    · rename_i hg
      split at ho
      · simp only [List.mem_singleton] at ho
        exact ⟨k, t, Or.inr ho, List.mem_cons_self _ _, hg⟩
      · rcases List.mem_cons.mp ho with h1 | h1
        · exact ⟨k, t, Or.inl h1, List.mem_cons_self _ _, hg⟩
        · rcases ih h1 with ⟨k', t', h2, h4, h5⟩
          exact ⟨k', t', h2, List.mem_cons_of_mem _ h4, h5⟩
    · rcases ih ho with ⟨k', t', h2, h4, h5⟩
      exact ⟨k', t', h2, List.mem_cons_of_mem _ h4, h5⟩

/-- When every eligible recipient's send succeeds, the `join_room` loop
delivers to exactly the open entries other than the excluded user id, in
participant-map order, and does not abort. -/
theorem broadcastJoin_ok (s : ServerState) (parts : List (Option Nat × Nat))
    (exclude : Option Nat) (fails : List Nat) (m : OutMsg)
    (h : ∀ k t, (k, t) ∈ parts → t ∉ fails) :
    broadcastJoin s parts exclude fails m =
      ((parts.filter (fun p => decide (p.1 ≠ exclude) && connOpen s p.2)).map
        (fun p => Out.sent p.1 p.2 m), false) := by
  induction parts with
  | nil => simp [broadcastJoin]
  | cons p rest ih =>
    obtain ⟨k, t⟩ := p
    have ht : t ∉ fails := h k t (List.mem_cons_self _ _)
    have hrest : ∀ k' t', (k', t') ∈ rest → t' ∉ fails := by
      intro k' t' hmem
      exact h k' t' (List.mem_cons_of_mem _ hmem)
    by_cases hg : k ≠ exclude ∧ connOpen s t = true
    · have hcond : (decide (k ≠ exclude) && connOpen s t) = true := by
        simp [hg.1, hg.2]
      simp only [broadcastJoin]
      rw [if_pos hg, if_neg (by simpa using ht), ih hrest]
      simp only [List.filter_cons, hcond]
      simp [hg.1, hg.2]
    · have hcond : (decide (k ≠ exclude) && connOpen s t) = false := by
        rcases not_and_or.mp hg with h1 | h1
        · simp [not_not.mp h1]
        · simp only [Bool.and_eq_false_iff]
          right
          simpa using h1
      simp only [broadcastJoin]
      rw [if_neg hg, ih hrest]
      simp only [List.filter_cons, hcond]
      simp [hg]

/-- When every remaining recipient's send succeeds, the synthesized
`leave_room` loop delivers to exactly the open remaining entries, in
participant-map order, and does not abort. -/
theorem broadcastLeave_ok (s : ServerState) (parts : List (Option Nat × Nat))
    (fails : List Nat) (m : OutMsg)
    (h : ∀ k t, (k, t) ∈ parts → t ∉ fails) :
    broadcastLeave s parts fails m =
      ((parts.filter (fun p => connOpen s p.2)).map
        (fun p => Out.sent p.1 p.2 m), false) := by
  induction parts with
  | nil => simp [broadcastLeave]
  | cons p rest ih =>
    obtain ⟨k, t⟩ := p
    have ht : t ∉ fails := h k t (List.mem_cons_self _ _)
    have hrest : ∀ k' t', (k', t') ∈ rest → t' ∉ fails := by
      intro k' t' hmem
      exact h k' t' (List.mem_cons_of_mem _ hmem)
    by_cases hg : connOpen s t = true
    · simp only [broadcastLeave]
      rw [if_pos hg, if_neg (by simpa using ht), ih hrest]
      simp [List.filter_cons, hg]
    · simp only [broadcastLeave]
      rw [if_neg hg, ih hrest]
      simp only [Bool.not_eq_true] at hg
      simp [List.filter_cons, hg]

/-- Every eligible recipient whose own send succeeds receives the payload
from the `code_update` / `cursor_update` loop, no matter which other
recipients' sends fail. -/
theorem broadcastCaught_delivers (s : ServerState)
    (parts : List (Option Nat × Nat)) (exclude : Option Nat)
    (fails : List Nat) (m : OutMsg) (k : Option Nat) (t : Nat)
    (hmem : (k, t) ∈ parts) (hk : k ≠ exclude) (hopen : connOpen s t = true)
    (hok : t ∉ fails) :
    Out.sent k t m ∈ broadcastCaught s parts exclude fails m := by
  induction parts with
  | nil => simp at hmem
  | cons p rest ih =>
    obtain ⟨k', t'⟩ := p
    simp only [broadcastCaught]
    rcases List.mem_cons.mp hmem with h1 | h1
    · obtain ⟨hk1, ht1⟩ := Prod.ext_iff.mp h1.symm
      simp only at hk1 ht1
      subst hk1
      subst ht1
      rw [if_pos ⟨hk, hopen⟩, if_neg (by simpa using hok)]
      exact List.mem_cons_self _ _
    · split
      · exact List.mem_cons_of_mem _ (ih h1)
      · exact ih h1

/-- A failing eligible recipient in the `code_update` / `cursor_update`
loop is recorded as a failed send, and the loop continues. -/
theorem broadcastCaught_reports (s : ServerState)
    (parts : List (Option Nat × Nat)) (exclude : Option Nat)
    (fails : List Nat) (m : OutMsg) (k : Option Nat) (t : Nat)
    (hmem : (k, t) ∈ parts) (hk : k ≠ exclude) (hopen : connOpen s t = true)
    (hbad : t ∈ fails) :
    Out.sendFailed k t m ∈ broadcastCaught s parts exclude fails m := by
  induction parts with
  | nil => simp at hmem
  | cons p rest ih =>
    obtain ⟨k', t'⟩ := p
    simp only [broadcastCaught]
    rcases List.mem_cons.mp hmem with h1 | h1
    · obtain ⟨hk1, ht1⟩ := Prod.ext_iff.mp h1.symm
      simp only at hk1 ht1
      subst hk1
      subst ht1
      rw [if_pos ⟨hk, hopen⟩, if_pos (by simpa using hbad)]
      exact List.mem_cons_self _ _
    · split
      · exact List.mem_cons_of_mem _ (ih h1)
      · exact ih h1

/-- Setting the same key twice keeps only the second value. -/
theorem mapSet_mapSet {α β : Type} [DecidableEq α] (m : List (α × β)) (k : α)
    (v v' : β) : mapSet (mapSet m k v) k v' = mapSet m k v' := by
  induction m with
  | nil => simp [mapSet]
  | cons p rest ih =>
    obtain ⟨ka, va⟩ := p
    simp only [mapSet]
    by_cases hk : ka = k
    · simp [hk, mapSet]
    · simp only [if_neg hk, mapSet, if_neg hk]
      rw [ih]

/-! ## The room-directory well-formedness invariant -/

/-- Well-formedness of a room directory value: no stored room has an
empty participant mapping, room ids are unique in the directory, and user
ids are unique within each room's participant mapping (uniqueness
reflects JS `Map` key semantics). -/
def RoomsWFL (rooms : List (Option String × List (Option Nat × Nat))) : Prop :=
  (∀ p ∈ rooms, p.2 ≠ []) ∧
  (rooms.map Prod.fst).Nodup ∧
  (∀ p ∈ rooms, (p.2.map Prod.fst).Nodup)

/-- Well-formedness of a relay state's room directory. -/
def RoomsWF (s : ServerState) : Prop := RoomsWFL s.rooms

theorem roomsWF_initState : RoomsWF initState := by
  refine ⟨?_, ?_, ?_⟩ <;> simp [initState]

/-- A `join_room` preserves directory well-formedness. -/
theorem roomsWFL_join (rooms : List (Option String × List (Option Nat × Nat)))
    (rid : Option String) (uid : Option Nat) (c : Nat) (h : RoomsWFL rooms) :
    RoomsWFL (mapSet rooms rid (mapSet ((mapLookup rooms rid).getD []) uid c)) := by
  refine ⟨?_, ?_, ?_⟩
  · intro p hp
    rcases mem_mapSet _ _ _ p hp with h1 | h1
    · exact h.1 p h1
    · rw [h1]
      exact mapSet_ne_nil _ _ _
  · exact mapSet_keys_nodup _ _ _ h.2.1
  · intro p hp
    rcases mem_mapSet _ _ _ p hp with h1 | h1
    · exact h.2.2 p h1
    · rw [h1]
      cases hl : mapLookup rooms rid with
      | none =>
        simp only [hl, Option.getD_none]
        simp [mapSet]
      | some ps =>
        simp only [hl, Option.getD_some]
        exact mapSet_keys_nodup _ _ _ (h.2.2 (rid, ps) (mapLookup_mem _ _ _ hl))

/-- Deleting a room preserves directory well-formedness. -/
theorem roomsWFL_delete (rooms : List (Option String × List (Option Nat × Nat)))
    (rid : Option String) (h : RoomsWFL rooms) : RoomsWFL (mapDelete rooms rid) := by
  refine ⟨?_, ?_, ?_⟩
  · intro p hp
    exact h.1 p ((mapDelete_sublist _ _).mem hp)
  · exact mapDelete_keys_nodup _ _ h.2.1
  · intro p hp
    exact h.2.2 p ((mapDelete_sublist _ _).mem hp)

/-- Removing one participant from an existing room, when the shrunken
mapping is nonempty, preserves directory well-formedness. -/
theorem roomsWFL_shrink (rooms : List (Option String × List (Option Nat × Nat)))
    (rid : Option String) (u : Option Nat)
    (parts : List (Option Nat × Nat)) (hlook : mapLookup rooms rid = some parts)
    (hne : mapDelete parts u ≠ []) (h : RoomsWFL rooms) :
    RoomsWFL (mapSet rooms rid (mapDelete parts u)) := by
  refine ⟨?_, ?_, ?_⟩
  · intro p hp
    rcases mem_mapSet _ _ _ p hp with h1 | h1
    · exact h.1 p h1
    · rw [h1]
      exact hne
  · exact mapSet_keys_nodup _ _ _ h.2.1
  · intro p hp
    rcases mem_mapSet _ _ _ p hp with h1 | h1
    · exact h.2.2 p h1
    · rw [h1]
      exact mapDelete_keys_nodup _ _ (h.2.2 _ (mapLookup_mem _ _ _ hlook))

/-- The room phase of the close handler leaves the directory unchanged,
deletes the bound room, or shrinks the bound room's nonempty mapping. -/
theorem closeRoomPhase_rooms_cases (sp : ServerState) (c : Nat) (fails : List Nat) :
    (closeRoomPhase sp c fails).1.1.rooms = sp.rooms ∨
    (closeRoomPhase sp c fails).1.1.rooms =
      mapDelete sp.rooms (getConn sp c).currentRoomId ∨
    (∃ parts, mapLookup sp.rooms (getConn sp c).currentRoomId = some parts ∧
      mapDelete parts (getConn sp c).userId ≠ [] ∧
      (closeRoomPhase sp c fails).1.1.rooms =
        mapSet sp.rooms (getConn sp c).currentRoomId
          (mapDelete parts (getConn sp c).userId)) := by
  simp only [closeRoomPhase]
  split
  · split
    · left; rfl
    · rename_i parts hlook
      split
      · right; left; rfl
      · rename_i hne
        right; right
        refine ⟨parts, hlook, ?_, rfl⟩
        intro hx
        exact hne (by rw [hx]; rfl)
  · left; rfl

/-- The final stats assignment does not touch the directory. -/
theorem handleClose_rooms (s : ServerState) (c : Nat) (fails : List Nat) :
    (handleClose s c fails).1.rooms =
      (closeRoomPhase (closePrelude s c) c fails).1.1.rooms := by
  simp only [handleClose]
  split <;> rfl

/-- The outputs of a close event are exactly those of its room phase. -/
theorem handleClose_snd (s : ServerState) (c : Nat) (fails : List Nat) :
    (handleClose s c fails).2 =
      (closeRoomPhase (closePrelude s c) c fails).1.2 := by
  simp only [handleClose]
  split <;> rfl

theorem roomsWF_handleClose (s : ServerState) (c : Nat) (fails : List Nat)
    (h : RoomsWF s) : RoomsWF (handleClose s c fails).1 := by
  rw [RoomsWF, handleClose_rooms]
  have hsp : (closePrelude s c).rooms = s.rooms := rfl
  rcases closeRoomPhase_rooms_cases (closePrelude s c) c fails with h1 | h1 | ⟨parts, hlook, hne, h1⟩
  · rw [h1, hsp]
    exact h
  · rw [h1, hsp]
    exact roomsWFL_delete _ _ h
  · rw [h1]
    rw [hsp] at hlook ⊢
    exact roomsWFL_shrink _ _ _ parts hlook hne h

theorem roomsWF_step (s : ServerState) (e : Event) (h : RoomsWF s) :
    RoomsWF (stepState s e) := by
  have hrw : ∀ s' : ServerState, s'.rooms = s.rooms → RoomsWF s' := by
    intro s' hh
    rw [RoomsWF, hh]
    exact h
  cases e with
  | connect c => exact hrw _ rfl
  | message c f fails =>
    cases f with
    | joinRoom rid uid uname =>
      rw [stepState, step, handleMessage, RoomsWF, handleJoin_fst]
      exact roomsWFL_join s.rooms rid uid c h
    | codeUpdate rid uid cont =>
      exact hrw _ (by rw [stepState, step, handleMessage, handleUpdate_fst])
    | cursorUpdate rid uid l col =>
      exact hrw _ (by rw [stepState, step, handleMessage, handleUpdate_fst])
    | leaveRoom rid uid => exact hrw _ rfl
    | unknownType => exact hrw _ rfl
    | badFrame =>
      exact hrw _ (by rw [stepState, step, handleMessage, catchReply_fst])
  | closeEv c fails => exact roomsWF_handleClose s c fails h
  | errorEv c => exact hrw _ rfl
  | pingTick c b =>
    refine hrw _ ?_
    rw [stepState, step, handlePingTick]
    split
    · split <;> rfl
    · rfl
  | closing c => exact hrw _ rfl

theorem roomsWF_run (tr : List Event) : RoomsWF (run tr) := by
  rw [run]
  have main : ∀ (l : List Event) (s : ServerState), RoomsWF s →
      RoomsWF (l.foldl stepState s) := by
    intro l
    induction l with
    | nil => intro s hs; exact hs
    | cons e rest ih =>
      intro s hs
      exact ih (stepState s e) (roomsWF_step s e hs)
  exact main tr initState roomsWF_initState

/-! ## More helper lemmas about handlers -/

theorem getConn_of_conns_set_self (s' s : ServerState) (c : Nat) (i : ConnInfo)
    (h : s'.conns = mapSet s.conns c i) : getConn s' c = i := by
  rw [getConn, h, mapLookup_mapSet_self]
  rfl

theorem getConn_of_conns_set_ne (s' s : ServerState) (c' c : Nat) (i : ConnInfo)
    (h : s'.conns = mapSet s.conns c' i) (hne : c ≠ c') :
    getConn s' c = getConn s c := by
  rw [getConn, h, mapLookup_mapSet_ne _ _ _ _ hne, getConn]

theorem closeRoomPhase_conns (sp : ServerState) (c : Nat) (fails : List Nat) :
    (closeRoomPhase sp c fails).1.1.conns = sp.conns := by
  simp only [closeRoomPhase]
  split
  · split
    · rfl
    · split <;> rfl
  · rfl

theorem closeRoomPhase_connections (sp : ServerState) (c : Nat) (fails : List Nat) :
    (closeRoomPhase sp c fails).1.1.connections = sp.connections := by
  simp only [closeRoomPhase]
  split
  · split
    · rfl
    · split <;> rfl
  · rfl

/-- Net registry effect of a close: the socket is removed from the
`connections` set, whatever the room phase does. -/
theorem handleClose_connections (s : ServerState) (c : Nat) (fails : List Nat) :
    (handleClose s c fails).1.connections =
      s.connections.filter (fun x => decide (x ≠ c)) := by
  simp only [handleClose]
  split
  · rw [closeRoomPhase_connections]
    rfl
  · show (closeRoomPhase (closePrelude s c) c fails).1.1.connections = _
    rw [closeRoomPhase_connections]
    rfl

/-- Net per-connection effect of a close: the closing connection's record
is marked not-open with a cancelled timer; its closure variables survive. -/
theorem handleClose_conns (s : ServerState) (c : Nat) (fails : List Nat) :
    (handleClose s c fails).1.conns = mapSet s.conns c
      { getConn s c with readyStateOpen := false, pingIntervalActive := false } := by
  simp only [handleClose]
  split
  · rw [closeRoomPhase_conns]
    rfl
  · show (closeRoomPhase (closePrelude s c) c fails).1.1.conns = _
    rw [closeRoomPhase_conns]
    rfl

theorem filter_idem {α : Type} (p : α → Bool) (l : List α) :
    List.filter p (List.filter p l) = List.filter p l := by
  induction l with
  | nil => rfl
  | cons a rest ih =>
    by_cases ha : p a = true
    · simp [List.filter_cons, ha, ih]
    · simp only [Bool.not_eq_true] at ha
      simp [List.filter_cons, ha, ih]

/-! ## Claim C1 -/

/-- C1: at every reachable state (in particular after each `join_room`
handling and each close handling completes), a room id is present in the
room directory if and only if its participant mapping is non-empty.
Creation happens on the first join (the `rooms.has` check), deletion in
the same close handling that removes the last participant, so the
directory never stores a room with zero participants. -/
theorem spec_C1_room_present_iff_nonempty (tr : List Event) (rid : Option String) :
    mapHas (run tr).rooms rid = true ↔
      (mapLookup (run tr).rooms rid).getD [] ≠ [] := by
  have hwf : RoomsWFL (run tr).rooms := roomsWF_run tr
  constructor
  · intro h
    cases hl : mapLookup (run tr).rooms rid with
    | none =>
      rw [mapHas, hl] at h
      simp at h
    | some ps =>
      simpa using hwf.1 (rid, ps) (mapLookup_mem _ _ _ hl)
  · intro h
    cases hl : mapLookup (run tr).rooms rid with
    | none =>
      rw [hl] at h
      simp at h
    | some ps =>
      rw [mapHas, hl]
      rfl

/-! ## Claim C8: updates before any join are dropped -/

/-- Whether an event is an inbound `join_room` frame on connection `c`. -/
def isJoinMessageFor (c : Nat) : Event → Bool
  | Event.message c' (ClientFrame.joinRoom _ _ _) _ => decide (c' = c)
  | _ => false

/-- Connection `c` processed no `join_room` anywhere in the trace. -/
def noJoinFor (tr : List Event) (c : Nat) : Bool :=
  tr.all (fun e => !(isJoinMessageFor c e))

/-- A connection whose closure variables are both `null` keeps them `null`
across any event that is not a `join_room` on that connection. -/
theorem binding_none_step (s : ServerState) (e : Event) (c : Nat)
    (hj : isJoinMessageFor c e = false)
    (hs : (getConn s c).userId = none ∧ (getConn s c).currentRoomId = none) :
    (getConn (stepState s e) c).userId = none ∧
      (getConn (stepState s e) c).currentRoomId = none := by
  cases e with
  | connect c' =>
    by_cases hcc : c = c'
    · subst hcc
      have h := getConn_of_conns_set_self (stepState s (Event.connect c)) s c
        { userId := none, currentRoomId := none
          pingIntervalActive := true, readyStateOpen := true } rfl
      rw [h]
      exact ⟨rfl, rfl⟩
    · have h := getConn_of_conns_set_ne (stepState s (Event.connect c')) s c' c
        { userId := none, currentRoomId := none
          pingIntervalActive := true, readyStateOpen := true } rfl hcc
      rw [h]
      exact hs
  | message c' f fails =>
    cases f with
    | joinRoom rid uid uname =>
      have hcc : c ≠ c' := by
        intro hh
        rw [isJoinMessageFor, hh] at hj
        simp at hj
      have hst : stepState s (Event.message c' (ClientFrame.joinRoom rid uid uname) fails) =
          { setConn s c' { getConn s c' with userId := uid, currentRoomId := rid } with
            rooms := mapSet s.rooms rid
              (mapSet ((mapLookup s.rooms rid).getD []) uid c') } := by
        rw [stepState, step, handleMessage, handleJoin_fst]
      have h := getConn_of_conns_set_ne
        (stepState s (Event.message c' (ClientFrame.joinRoom rid uid uname) fails)) s c' c
        { getConn s c' with userId := uid, currentRoomId := rid }
        (by rw [hst]; rfl) hcc
      rw [h]
      exact hs
    | codeUpdate rid uid cont =>
      have hst : (stepState s (Event.message c' (ClientFrame.codeUpdate rid uid cont) fails)) = s := by
        rw [stepState, step, handleMessage, handleUpdate_fst]
      rw [hst]
      exact hs
    | cursorUpdate rid uid l col =>
      have hst : (stepState s (Event.message c' (ClientFrame.cursorUpdate rid uid l col) fails)) = s := by
        rw [stepState, step, handleMessage, handleUpdate_fst]
      rw [hst]
      exact hs
    | leaveRoom rid uid => exact hs
    | unknownType => exact hs
    | badFrame =>
      have hst : (stepState s (Event.message c' ClientFrame.badFrame fails)) = s := by
        rw [stepState, step, handleMessage, catchReply_fst]
      rw [hst]
      exact hs
  | closeEv c' fails =>
    by_cases hcc : c = c'
    · subst hcc
      have h := getConn_of_conns_set_self (stepState s (Event.closeEv c fails)) s c
        { getConn s c with readyStateOpen := false, pingIntervalActive := false }
        (handleClose_conns s c fails)
      rw [h]
      exact hs
    · have h := getConn_of_conns_set_ne (stepState s (Event.closeEv c' fails)) s c' c
        { getConn s c' with readyStateOpen := false, pingIntervalActive := false }
        (handleClose_conns s c' fails) hcc
      rw [h]
      exact hs
  | errorEv c' =>
    by_cases hcc : c = c'
    · subst hcc
      have h := getConn_of_conns_set_self (stepState s (Event.errorEv c)) s c
        { getConn s c with pingIntervalActive := false } rfl
      rw [h]
      exact hs
    · have h := getConn_of_conns_set_ne (stepState s (Event.errorEv c')) s c' c
        { getConn s c' with pingIntervalActive := false } rfl hcc
      rw [h]
      exact hs
  | pingTick c' b =>
    rw [stepState, step, handlePingTick]
    split
    · split
      · by_cases hcc : c = c'
        · subst hcc
          have h := getConn_of_conns_set_self
            (setConn s c { getConn s c with readyStateOpen := false }) s c
            { getConn s c with readyStateOpen := false } rfl
          rw [h]
          exact hs
        · have h := getConn_of_conns_set_ne
            (setConn s c' { getConn s c' with readyStateOpen := false }) s c' c
            { getConn s c' with readyStateOpen := false } rfl hcc
          rw [h]
          exact hs
      · exact hs
    · exact hs
  | closing c' =>
    by_cases hcc : c = c'
    · subst hcc
      have h := getConn_of_conns_set_self (stepState s (Event.closing c)) s c
        { getConn s c with readyStateOpen := false } rfl
      rw [h]
      exact hs
    · have h := getConn_of_conns_set_ne (stepState s (Event.closing c')) s c' c
        { getConn s c' with readyStateOpen := false } rfl hcc
      rw [h]
      exact hs

/-- After any trace with no `join_room` processed on connection `c`, the
connection's closure variables are still `null`. -/
theorem binding_none_of_noJoin (tr : List Event) (c : Nat)
    (h : noJoinFor tr c = true) :
    (getConn (run tr) c).userId = none ∧
      (getConn (run tr) c).currentRoomId = none := by
  rw [run]
  have main : ∀ (l : List Event) (s : ServerState),
      ((getConn s c).userId = none ∧ (getConn s c).currentRoomId = none) →
      l.all (fun e => !(isJoinMessageFor c e)) = true →
      ((getConn (l.foldl stepState s) c).userId = none ∧
        (getConn (l.foldl stepState s) c).currentRoomId = none) := by
    intro l
    induction l with
    | nil => intro s hs _; exact hs
    | cons e rest ih =>
      intro s hs hall
      rw [List.all_cons, Bool.and_eq_true] at hall
      have hj : isJoinMessageFor c e = false := by
        rcases hall with ⟨h1, _⟩
        simpa using h1
      exact ih (stepState s e) (binding_none_step s e c hj hs) hall.2
  refine main tr initState ⟨rfl, rfl⟩ ?_
  rw [noJoinFor] at h
  exact h

/-- C8: a `code_update` or `cursor_update` received on a connection that
has not yet processed any `join_room` (so its room/user closure variables
are still `null`) is silently dropped: the handler hits the
missing-room-context guard, sends nothing to anyone (in particular no
error back to the sender), and leaves the whole relay state unchanged.
The source's diagnostic `console.warn` is outside the model. -/
theorem spec_C8_update_before_join_dropped (tr : List Event) (c : Nat)
    (f : ClientFrame) (fails : List Nat)
    (hno : noJoinFor tr c = true)
    (hf : (∃ rid uid cont, f = ClientFrame.codeUpdate rid uid cont) ∨
      (∃ rid uid l col, f = ClientFrame.cursorUpdate rid uid l col)) :
    step (run tr) (Event.message c f fails) = (run tr, []) := by
  obtain ⟨hu, hr⟩ := binding_none_of_noJoin tr c hno
  have hguard : truthyStr (getConn (run tr) c).currentRoomId = false ∨
      truthyNum (getConn (run tr) c).userId = false := by
    left
    rw [hr]
    rfl
  rcases hf with ⟨rid, uid, cont, rfl⟩ | ⟨rid, uid, l, col, rfl⟩ <;>
  · rw [step, handleMessage, handleUpdate]
    simp only [if_pos hguard]

/-- Witness for C8: a freshly connected socket sends a `code_update`
before any `join_room`; nothing is sent back and the state is unchanged. -/
theorem spec_C8_witness :
    step (run [Event.connect 1])
        (Event.message 1 (ClientFrame.codeUpdate (some "r1") (some 5) (some "x=1")) []) =
      (run [Event.connect 1], []) :=
  spec_C8_update_before_join_dropped [Event.connect 1] 1
    (ClientFrame.codeUpdate (some "r1") (some 5) (some "x=1")) []
    (by decide) (Or.inl ⟨some "r1", some 5, some "x=1", rfl⟩)

/-! ## Claim C4: malformed frames -/

/-- C4 (amended): an inbound frame that is unparseable JSON (so that
`JSON.parse` throws) causes, in any state and any connection state,
exactly one error object to be sent back to the originating connection —
provided that connection's socket is still open and its own send does not
throw — with no broadcast to any room and the entire relay state (room
directory, connection registry, closure bindings) left unchanged.  A
parseable frame that merely misses required fields is NOT treated as
malformed: it flows into the switch and produces no error reply (see the
counterexample, where it even mutates the room directory). -/
theorem spec_C4_unparseable_error_reply (s : ServerState) (c : Nat)
    (fails : List Nat) (hopen : connOpen s c = true) (hok : c ∉ fails) :
    step s (Event.message c ClientFrame.badFrame fails) =
      (s, [Out.sentDirect c OutMsg.errorNote]) := by
  rw [step, handleMessage]
  simp only [catchReply, if_pos hopen, if_neg hok]
  rfl

/-- Witness for C4: a connected socket sends garbage; it receives exactly
one error object and nothing else changes. -/
theorem spec_C4_witness :
    step (run [Event.connect 1]) (Event.message 1 ClientFrame.badFrame []) =
      (run [Event.connect 1], [Out.sentDirect 1 OutMsg.errorNote]) :=
  spec_C4_unparseable_error_reply (run [Event.connect 1]) 1 []
    (by decide) (by decide)

/-- Counterexample to C4 as stated: a parseable `join_room` frame missing
all its required fields (`roomId`, `userId`, `username` all absent) is
malformed in the claim's sense, yet the handler sends NO error message
(the output list is empty) and the room directory does NOT stay unchanged:
a room keyed by the `undefined` room id is created with one participant
keyed by the `undefined` user id. -/
theorem spec_C4_counterexample :
    step (run [Event.connect 1])
        (Event.message 1 (ClientFrame.joinRoom none none none) []) =
      ({ rooms := [(none, [(none, 1)])]
         connections := [1]
         conns := [(1, { userId := none, currentRoomId := none
                         pingIntervalActive := true, readyStateOpen := true })]
         statsConnections := 1, statsRooms := 0 }, []) := by decide

/-! ## Claim C9: duplicate join replaces the stored reference -/

/-- C9: when room `r` already stores user id `u` through connection `c1`
and a second `join_room` for `u` in `r` arrives on a different connection
`c2`, the stored reference is replaced by `c2` in place: `u` still appears
in the mapping exactly once, and the superseded connection `c1` is neither
closed nor terminated (its socket/timer state is untouched) nor
deregistered (the `connections` set is unchanged). -/
theorem spec_C9_duplicate_join_replaces (s : ServerState) (c1 c2 : Nat)
    (r : String) (u : Nat) (uname : Option String)
    (ps : List (Option Nat × Nat)) (fails : List Nat)
    (hne : c1 ≠ c2)
    (hroom : mapLookup s.rooms (some r) = some ps)
    (hmem : (some u, c1) ∈ ps)
    (hnd : (ps.map Prod.fst).Nodup) :
    mapLookup (stepState s
        (Event.message c2 (ClientFrame.joinRoom (some r) (some u) uname) fails)).rooms
        (some r) = some (mapSet ps (some u) c2) ∧
    mapLookup (mapSet ps (some u) c2) (some u) = some c2 ∧
    ((mapSet ps (some u) c2).map Prod.fst).Nodup ∧
    some u ∈ (mapSet ps (some u) c2).map Prod.fst ∧
    getConn (stepState s
        (Event.message c2 (ClientFrame.joinRoom (some r) (some u) uname) fails)) c1 =
      getConn s c1 ∧
    (stepState s
        (Event.message c2 (ClientFrame.joinRoom (some r) (some u) uname) fails)).connections =
      s.connections := by
  have hst : stepState s (Event.message c2 (ClientFrame.joinRoom (some r) (some u) uname) fails) =
      { setConn s c2 { getConn s c2 with userId := some u, currentRoomId := some r } with
        rooms := mapSet s.rooms (some r)
          (mapSet ((mapLookup s.rooms (some r)).getD []) (some u) c2) } := by
    rw [stepState, step, handleMessage, handleJoin_fst]
  have hgetD : (mapLookup s.rooms (some r)).getD [] = ps := by rw [hroom]; rfl
  have hkeys : (mapSet ps (some u) c2).map Prod.fst = ps.map Prod.fst := by
    apply mapSet_keys_of_present
    intro hcon
    rw [mapLookup_eq_none_iff] at hcon
    exact hcon (List.mem_map_of_mem Prod.fst hmem)
  refine ⟨?_, ?_, ?_, ?_, ?_, ?_⟩
  · rw [hst]
    show mapLookup (mapSet s.rooms (some r) _) (some r) = _
    rw [hgetD, mapLookup_mapSet_self]
  · exact mapLookup_mapSet_self ps (some u) c2
  · rw [hkeys]
    exact hnd
  · rw [hkeys]
    exact List.mem_map_of_mem Prod.fst hmem
  · exact getConn_of_conns_set_ne _ s c2 c1
      { getConn s c2 with userId := some u, currentRoomId := some r }
      (by rw [hst]; rfl) hne
  · rw [hst]
    rfl

/-- Witness for C9: user 7 is stored in room `r1` through connection 1 and
rejoins through connection 2; the reference flips to connection 2 while
connection 1 stays registered and untouched. -/
theorem spec_C9_witness :
    mapLookup (stepState
        { rooms := [(some "r1", [(some 7, 1)])]
          connections := [1, 2]
          conns := [(1, { userId := some 7, currentRoomId := some "r1"
                          pingIntervalActive := true, readyStateOpen := true }),
                    (2, { userId := none, currentRoomId := none
                          pingIntervalActive := true, readyStateOpen := true })]
          statsConnections := 2, statsRooms := 1 }
        (Event.message 2 (ClientFrame.joinRoom (some "r1") (some 7) (some "bob")) [])).rooms
        (some "r1") = some (mapSet [(some 7, 1)] (some 7) 2) ∧
    mapLookup (mapSet [(some 7, 1)] (some 7) 2) (some 7) = some 2 ∧
    ((mapSet [(some 7, 1)] (some 7) 2).map Prod.fst).Nodup ∧
    some 7 ∈ (mapSet [(some 7, 1)] (some 7) 2).map Prod.fst ∧
    getConn (stepState
        { rooms := [(some "r1", [(some 7, 1)])]
          connections := [1, 2]
          conns := [(1, { userId := some 7, currentRoomId := some "r1"
                          pingIntervalActive := true, readyStateOpen := true }),
                    (2, { userId := none, currentRoomId := none
                          pingIntervalActive := true, readyStateOpen := true })]
          statsConnections := 2, statsRooms := 1 }
        (Event.message 2 (ClientFrame.joinRoom (some "r1") (some 7) (some "bob")) [])) 1 =
      getConn
        { rooms := [(some "r1", [(some 7, 1)])]
          connections := [1, 2]
          conns := [(1, { userId := some 7, currentRoomId := some "r1"
                          pingIntervalActive := true, readyStateOpen := true }),
                    (2, { userId := none, currentRoomId := none
                          pingIntervalActive := true, readyStateOpen := true })]
          statsConnections := 2, statsRooms := 1 } 1 ∧
    (stepState
        { rooms := [(some "r1", [(some 7, 1)])]
          connections := [1, 2]
          conns := [(1, { userId := some 7, currentRoomId := some "r1"
                          pingIntervalActive := true, readyStateOpen := true }),
                    (2, { userId := none, currentRoomId := none
                          pingIntervalActive := true, readyStateOpen := true })]
          statsConnections := 2, statsRooms := 1 }
        (Event.message 2 (ClientFrame.joinRoom (some "r1") (some 7) (some "bob")) [])).connections =
      [1, 2] :=
  spec_C9_duplicate_join_replaces
    { rooms := [(some "r1", [(some 7, 1)])]
      connections := [1, 2]
      conns := [(1, { userId := some 7, currentRoomId := some "r1"
                      pingIntervalActive := true, readyStateOpen := true }),
                (2, { userId := none, currentRoomId := none
                      pingIntervalActive := true, readyStateOpen := true })]
      statsConnections := 2, statsRooms := 1 }
    1 2 "r1" 7 (some "bob") [(some 7, 1)] []
    (by decide) (by decide) (by decide) (by decide)

/-! ## Claim C3: broadcasts never target the excluded user id -/

/-- The participant-map key a send attempt was addressed through, when the
send came from one of the three broadcast loops. -/
def broadcastKeyOf : Out → Option (Option Nat)
  | Out.sent k _ _ => some k
  | Out.sendFailed k _ _ => some k
  | Out.sentDirect _ _ => none
  | Out.sendFailedDirect _ _ => none

/-- The user id excluded by the broadcast an event performs (if any): a
`join_room` excludes the frame's user id just bound to the sender, an
update excludes the sender's bound user id, and the close handler's
synthesized `leave_room` excludes the departed bound user id (whose entry
it has just deleted). -/
def excludedUserOf (s : ServerState) : Event → Option (Option Nat)
  | Event.message _ (ClientFrame.joinRoom _ uid _) _ => some uid
  | Event.message c (ClientFrame.codeUpdate _ _ _) _ => some (getConn s c).userId
  | Event.message c (ClientFrame.cursorUpdate _ _ _ _) _ => some (getConn s c).userId
  | Event.closeEv c _ => some (getConn s c).userId
  | _ => none

theorem catchReply_snd_mem (s : ServerState) (c : Nat) (fails : List Nat)
    (outs : List Out) (o : Out) (ho : o ∈ (catchReply s c fails outs).2) :
    o ∈ outs ∨ o = Out.sentDirect c OutMsg.errorNote ∨
      o = Out.sendFailedDirect c OutMsg.errorNote := by
  rw [catchReply] at ho
  split at ho
  · split at ho
    · rcases List.mem_append.mp ho with h | h
      · exact Or.inl h
      · exact Or.inr (Or.inr (by simpa using h))
    · rcases List.mem_append.mp ho with h | h
      · exact Or.inl h
      · exact Or.inr (Or.inl (by simpa using h))
  · exact Or.inl ho

/-- Every output of a `join_room` handling is either a loop send through a
key different from the just-bound user id, or the catch block's direct
error reply to the sender. -/
theorem handleJoin_snd_mem (s : ServerState) (c : Nat) (rid : Option String)
    (uid : Option Nat) (uname : Option String) (fails : List Nat) (o : Out)
    (ho : o ∈ (handleJoin s c rid uid uname fails).2) :
    (∃ k t m', (o = Out.sent k t m' ∨ o = Out.sendFailed k t m') ∧ k ≠ uid) ∨
      o = Out.sentDirect c OutMsg.errorNote ∨
      o = Out.sendFailedDirect c OutMsg.errorNote := by
  simp only [handleJoin] at ho
  split at ho
  · rcases catchReply_snd_mem _ _ _ _ _ ho with h | h
    · rcases broadcastJoin_mem _ _ _ _ _ _ h with ⟨k, t, h1, h2, _, _⟩
      exact Or.inl ⟨k, t, _, h1, h2⟩
    · exact Or.inr h
  · rcases broadcastJoin_mem _ _ _ _ _ _ ho with ⟨k, t, h1, h2, _, _⟩
    exact Or.inl ⟨k, t, _, h1, h2⟩

/-- Every output of an update handling is a loop send through a key
different from the sender's bound user id. -/
theorem handleUpdate_snd_mem (s : ServerState) (c : Nat) (f : ClientFrame)
    (fails : List Nat) (o : Out) (ho : o ∈ (handleUpdate s c f fails).2) :
    ∃ k t m', (o = Out.sent k t m' ∨ o = Out.sendFailed k t m') ∧
      k ≠ (getConn s c).userId := by
  simp only [handleUpdate] at ho
  split at ho
  · simp at ho
  · split at ho
    · simp at ho
    · rcases broadcastCaught_mem _ _ _ _ _ _ ho with ⟨k, t, h1, h2, _, _⟩
      exact ⟨k, t, _, h1, h2⟩

/-- Every output of the close handler is a loop send through a key that
survived the deletion of the departed user id, hence differs from it. -/
theorem handleClose_snd_mem (s : ServerState) (c : Nat) (fails : List Nat)
    (o : Out) (ho : o ∈ (handleClose s c fails).2) :
    ∃ k t m', (o = Out.sent k t m' ∨ o = Out.sendFailed k t m') ∧
      k ≠ (getConn s c).userId := by
  rw [handleClose_snd] at ho
  have huid : (getConn (closePrelude s c) c).userId = (getConn s c).userId := by
    have h := getConn_of_conns_set_self (closePrelude s c) s c
      { getConn s c with readyStateOpen := false, pingIntervalActive := false } rfl
    rw [h]
  simp only [closeRoomPhase] at ho
  split at ho
  · split at ho
    · simp at ho
    · rename_i parts hlook
      split at ho
      · simp at ho
      · rcases broadcastLeave_mem _ _ _ _ _ ho with ⟨k, t, h1, h2, _⟩
        refine ⟨k, t, _, h1, ?_⟩
        have h3 := (mem_mapDelete _ _ _).mp h2
        rw [← huid]
        exact h3.2
  · simp at ho

/-- C3 (amended): no broadcast payload is ever addressed through the
participant-mapping entry whose user-id key equals the broadcast's
excluded id — across all four broadcast sites (`join_room` notification,
`code_update` and `cursor_update` fan-out, synthesized `leave_room`).
NOTE the entry-level guarantee does not extend to the sender connection
itself: a connection registered under a second user id receives its own
updates (see the counterexample). -/
theorem spec_C3_no_delivery_to_excluded_key (s : ServerState) (e : Event)
    (o : Out) (k ex : Option Nat) (ho : o ∈ stepOut s e)
    (hk : broadcastKeyOf o = some k) (hex : excludedUserOf s e = some ex) :
    k ≠ ex := by
  cases e with
  | connect c => simp [excludedUserOf] at hex
  | message c f fails =>
    cases f with
    | joinRoom rid uid uname =>
      have hexe : ex = uid := by
        simp only [excludedUserOf] at hex
        exact (Option.some.inj hex).symm
      rw [hexe]
      rcases handleJoin_snd_mem s c rid uid uname fails o ho with ⟨k', t, m', h1, h2⟩ | h | h
      · rcases h1 with h1 | h1 <;>
        · subst h1
          simp only [broadcastKeyOf] at hk
          rw [← Option.some.inj hk]
          exact h2
      · subst h
        simp [broadcastKeyOf] at hk
      · subst h
        simp [broadcastKeyOf] at hk
    | codeUpdate rid uid cont =>
      have hexe : ex = (getConn s c).userId := by
        simp only [excludedUserOf] at hex
        exact (Option.some.inj hex).symm
      rw [hexe]
      rcases handleUpdate_snd_mem s c _ fails o ho with ⟨k', t, m', h1, h2⟩
      rcases h1 with h1 | h1 <;>
      · subst h1
        simp only [broadcastKeyOf] at hk
        rw [← Option.some.inj hk]
        exact h2
    | cursorUpdate rid uid l col =>
      have hexe : ex = (getConn s c).userId := by
        simp only [excludedUserOf] at hex
        exact (Option.some.inj hex).symm
      rw [hexe]
      rcases handleUpdate_snd_mem s c _ fails o ho with ⟨k', t, m', h1, h2⟩
      rcases h1 with h1 | h1 <;>
      · subst h1
        simp only [broadcastKeyOf] at hk
        rw [← Option.some.inj hk]
        exact h2
    | leaveRoom rid uid => simp [excludedUserOf] at hex
    | unknownType => simp [excludedUserOf] at hex
    | badFrame => simp [excludedUserOf] at hex
  | closeEv c fails =>
    have hexe : ex = (getConn s c).userId := by
      simp only [excludedUserOf] at hex
      exact (Option.some.inj hex).symm
    rw [hexe]
    rcases handleClose_snd_mem s c fails o ho with ⟨k', t, m', h1, h2⟩
    rcases h1 with h1 | h1 <;>
    · subst h1
      simp only [broadcastKeyOf] at hk
      rw [← Option.some.inj hk]
      exact h2
  | errorEv c => simp [excludedUserOf] at hex
  | pingTick c b => simp [excludedUserOf] at hex
  | closing c => simp [excludedUserOf] at hex

/-- Witness for C3: in a two-user room, user 2's update is delivered
through user 1's entry only; the theorem instantiates to show that key is
not the excluded one. -/
theorem spec_C3_witness : (some 1 : Option Nat) ≠ some 2 :=
  spec_C3_no_delivery_to_excluded_key
    { rooms := [(some "r1", [(some 1, 1), (some 2, 2)])]
      connections := [1, 2]
      conns := [(1, { userId := some 1, currentRoomId := some "r1"
                      pingIntervalActive := true, readyStateOpen := true }),
                (2, { userId := some 2, currentRoomId := some "r1"
                      pingIntervalActive := true, readyStateOpen := true })]
      statsConnections := 2, statsRooms := 1 }
    (Event.message 2 (ClientFrame.codeUpdate (some "r1") (some 2) (some "x=1")) [])
    (Out.sent (some 1) 1
      (OutMsg.echoed (ClientFrame.codeUpdate (some "r1") (some 2) (some "x=1"))))
    (some 1) (some 2) (by decide) (by decide) (by decide)

/-- Counterexample to C3 as stated: connection 1 joins room `r` first as
user 1 and then again as user 2, so it is stored under both keys.  Its
own `code_update` (excluded id: the bound user 2) is then delivered back
to connection 1 through the stale key 1 — the sender receives its own
update echoed back. -/
theorem spec_C3_counterexample :
    stepOut
      (run [Event.connect 1,
            Event.message 1 (ClientFrame.joinRoom (some "r") (some 1) none) [],
            Event.message 1 (ClientFrame.joinRoom (some "r") (some 2) none) []])
      (Event.message 1 (ClientFrame.codeUpdate (some "r") (some 2) (some "x=1")) []) =
      [Out.sent (some 1) 1
        (OutMsg.echoed (ClientFrame.codeUpdate (some "r") (some 2) (some "x=1")))] := by
  decide

/-! ## Claim C7: membership in at most one room -/

/-- The room ids named by the `join_room` frames connection `c` processed
along the trace. -/
def joinedRoomIds (tr : List Event) (c : Nat) : List (Option String) :=
  tr.filterMap (fun e =>
    match e with
    | Event.message c' (ClientFrame.joinRoom rid _ _) _ =>
      if c' = c then some rid else none
    | _ => none)

theorem joinedRoomIds_cons (e : Event) (rest : List Event) (c : Nat) :
    joinedRoomIds (e :: rest) c = joinedRoomIds [e] c ++ joinedRoomIds rest c := by
  cases e with
  | message c' f fails =>
    cases f with
    | joinRoom rid uid uname =>
      by_cases hcc : c' = c <;> simp [joinedRoomIds, List.filterMap_cons, hcc]
    | codeUpdate rid uid cont => simp [joinedRoomIds, List.filterMap_cons]
    | cursorUpdate rid uid l col => simp [joinedRoomIds, List.filterMap_cons]
    | leaveRoom rid uid => simp [joinedRoomIds, List.filterMap_cons]
    | unknownType => simp [joinedRoomIds, List.filterMap_cons]
    | badFrame => simp [joinedRoomIds, List.filterMap_cons]
  | connect c' => simp [joinedRoomIds, List.filterMap_cons]
  | closeEv c' fails => simp [joinedRoomIds, List.filterMap_cons]
  | errorEv c' => simp [joinedRoomIds, List.filterMap_cons]
  | pingTick c' b => simp [joinedRoomIds, List.filterMap_cons]
  | closing c' => simp [joinedRoomIds, List.filterMap_cons]

/-- One step preserves the fact that connection `c` only sits in rooms it
has joined (the one event's own join, if any, is accounted for). -/
theorem memRooms_step (s : ServerState) (e : Event) (c : Nat)
    (X : List (Option String))
    (hP : ∀ rid ps k, mapLookup s.rooms rid = some ps → (k, c) ∈ ps → rid ∈ X) :
    ∀ rid ps k, mapLookup (stepState s e).rooms rid = some ps → (k, c) ∈ ps →
      rid ∈ X ++ joinedRoomIds [e] c := by
  have hmono : ∀ rid, rid ∈ X → rid ∈ X ++ joinedRoomIds [e] c := by
    intro rid h
    exact List.mem_append_left _ h
  have hsame : (stepState s e).rooms = s.rooms →
      ∀ rid ps k, mapLookup (stepState s e).rooms rid = some ps → (k, c) ∈ ps →
        rid ∈ X ++ joinedRoomIds [e] c := by
    intro hr rid ps k hlook hm
    rw [hr] at hlook
    exact hmono rid (hP rid ps k hlook hm)
  cases e with
  | connect c' => exact hsame rfl
  | message c' f fails =>
    cases f with
    | joinRoom rid0 uid uname =>
      intro rid ps k hlook hm
      have hst : (stepState s (Event.message c' (ClientFrame.joinRoom rid0 uid uname) fails)).rooms =
          mapSet s.rooms rid0 (mapSet ((mapLookup s.rooms rid0).getD []) uid c') := by
        rw [stepState, step, handleMessage, handleJoin_fst]
      rw [hst] at hlook
      by_cases hr : rid = rid0
      · subst hr
        rw [mapLookup_mapSet_self] at hlook
        have hps : ps = mapSet ((mapLookup s.rooms rid).getD []) uid c' :=
          (Option.some.inj hlook).symm
        rw [hps] at hm
        rcases mem_mapSet _ _ _ _ hm with h1 | h1
        · cases hl : mapLookup s.rooms rid with
          | none =>
            rw [hl] at h1
            simp at h1
          | some qs =>
            rw [hl] at h1
            exact hmono rid (hP rid qs k hl h1)
        · have hcc : c' = c := congrArg Prod.snd h1.symm
          apply List.mem_append_right
          simp [joinedRoomIds, hcc]
      · rw [mapLookup_mapSet_ne _ _ _ _ hr] at hlook
        exact hmono rid (hP rid ps k hlook hm)
    | codeUpdate rid uid cont =>
      exact hsame (by rw [stepState, step, handleMessage, handleUpdate_fst])
    | cursorUpdate rid uid l col =>
      exact hsame (by rw [stepState, step, handleMessage, handleUpdate_fst])
    | leaveRoom rid uid => exact hsame rfl
    | unknownType => exact hsame rfl
    | badFrame =>
      exact hsame (by rw [stepState, step, handleMessage, catchReply_fst])
  | closeEv c' fails =>
    intro rid ps k hlook hm
    have hcr : (stepState s (Event.closeEv c' fails)).rooms =
        (closeRoomPhase (closePrelude s c') c' fails).1.1.rooms :=
      handleClose_rooms s c' fails
    have hsp : (closePrelude s c').rooms = s.rooms := rfl
    rcases closeRoomPhase_rooms_cases (closePrelude s c') c' fails with
      h1 | h1 | ⟨parts, hlook2, hne2, h1⟩
    · rw [hcr, h1, hsp] at hlook
      exact hmono rid (hP rid ps k hlook hm)
    · rw [hcr, h1, hsp] at hlook
      by_cases hr : rid = (getConn (closePrelude s c') c').currentRoomId
      · rw [hr, mapLookup_mapDelete_self] at hlook
        exact absurd hlook (by simp)
      · rw [mapLookup_mapDelete_ne _ _ _ hr] at hlook
        exact hmono rid (hP rid ps k hlook hm)
    · rw [hcr, h1, hsp] at hlook
      rw [hsp] at hlook2
      by_cases hr : rid = (getConn (closePrelude s c') c').currentRoomId
      · rw [hr, mapLookup_mapSet_self] at hlook
        have hps : ps = mapDelete parts (getConn (closePrelude s c') c').userId :=
          (Option.some.inj hlook).symm
        rw [hps] at hm
        have h2 := (mem_mapDelete _ _ _).mp hm
        rw [← hr] at hlook2
        exact hmono rid (hP rid parts k hlook2 h2.1)
      · rw [mapLookup_mapSet_ne _ _ _ _ hr] at hlook
        exact hmono rid (hP rid ps k hlook hm)
  | errorEv c' => exact hsame rfl
  | pingTick c' b =>
    refine hsame ?_
    rw [stepState, step, handlePingTick]
    split
    · split <;> rfl
    · rfl
  | closing c' => exact hsame rfl

/-- Along any trace, connection `c` appears in a room's participant
mapping only if it processed a `join_room` naming that room id. -/
theorem conn_in_room_implies_joined (tr : List Event) (c : Nat)
    (rid : Option String) (ps : List (Option Nat × Nat)) (k : Option Nat)
    (hlook : mapLookup (run tr).rooms rid = some ps) (hm : (k, c) ∈ ps) :
    rid ∈ joinedRoomIds tr c := by
  have main : ∀ (l : List Event) (s : ServerState) (X : List (Option String)),
      (∀ rid ps k, mapLookup s.rooms rid = some ps → (k, c) ∈ ps → rid ∈ X) →
      ∀ rid ps k, mapLookup (l.foldl stepState s).rooms rid = some ps →
        (k, c) ∈ ps → rid ∈ X ++ joinedRoomIds l c := by
    intro l
    induction l with
    | nil =>
      intro s X hP rid ps k h1 h2
      simpa [joinedRoomIds] using hP rid ps k h1 h2
    | cons e rest ih =>
      intro s X hP rid ps k h1 h2
      have step1 := memRooms_step s e c X hP
      have h3 := ih (stepState s e) (X ++ joinedRoomIds [e] c) step1 rid ps k h1 h2
      rw [joinedRoomIds_cons, ← List.append_assoc]
      exact h3
  have h0 : ∀ rid ps k, mapLookup initState.rooms rid = some ps →
      (k, c) ∈ ps → rid ∈ ([] : List (Option String)) := by
    intro rid ps k h1 _
    rw [initState] at h1
    exact absurd h1 (by simp [mapLookup])
  have := main tr initState [] h0 rid ps k (by rw [← run]; exact hlook) hm
  simpa using this

/-- C7 (amended): a connection sits only in rooms it has joined; since a
later `join_room` on the same connection naming a DIFFERENT room id does
not remove the connection from its previous room (see the counterexample),
the at-most-one-room guarantee holds exactly when all of the connection's
processed `join_room` frames name a single room id. -/
theorem spec_C7_single_join_at_most_one_room (tr : List Event) (c : Nat)
    (rid1 rid2 : Option String) (ps1 ps2 : List (Option Nat × Nat))
    (k1 k2 : Option Nat)
    (hsingle : ∀ r1 ∈ joinedRoomIds tr c, ∀ r2 ∈ joinedRoomIds tr c, r1 = r2)
    (h1 : mapLookup (run tr).rooms rid1 = some ps1)
    (h2 : mapLookup (run tr).rooms rid2 = some ps2)
    (hm1 : (k1, c) ∈ ps1) (hm2 : (k2, c) ∈ ps2) : rid1 = rid2 :=
  hsingle rid1 (conn_in_room_implies_joined tr c rid1 ps1 k1 h1 hm1)
    rid2 (conn_in_room_implies_joined tr c rid2 ps2 k2 h2 hm2)

/-- Witness for C7: a connection that joined only room `A` is found in
room `A` alone. -/
theorem spec_C7_witness : (some "A" : Option String) = some "A" :=
  spec_C7_single_join_at_most_one_room
    [Event.connect 1,
     Event.message 1 (ClientFrame.joinRoom (some "A") (some 5) none) []]
    1 (some "A") (some "A") [(some 5, 1)] [(some 5, 1)] (some 5) (some 5)
    (by decide) (by decide) (by decide) (by decide) (by decide)

/-- Counterexample to C7 as stated: connection 1 joins room `A`, then
processes a `join_room` naming room `B`; afterwards it is present in the
participant mappings of BOTH rooms simultaneously — the join handler
never removes the connection from its previous room. -/
theorem spec_C7_counterexample :
    mapLookup (run [Event.connect 1,
        Event.message 1 (ClientFrame.joinRoom (some "A") (some 5) none) [],
        Event.message 1 (ClientFrame.joinRoom (some "B") (some 5) none) []]).rooms
      (some "A") = some [(some 5, 1)] ∧
    mapLookup (run [Event.connect 1,
        Event.message 1 (ClientFrame.joinRoom (some "A") (some 5) none) [],
        Event.message 1 (ClientFrame.joinRoom (some "B") (some 5) none) []]).rooms
      (some "B") = some [(some 5, 1)] := by
  decide

/-! ## Close-handler characterization under a truthy binding -/

theorem getConn_closePrelude_self (s : ServerState) (c : Nat) :
    getConn (closePrelude s c) c =
      { getConn s c with readyStateOpen := false, pingIntervalActive := false } :=
  getConn_of_conns_set_self _ s c _ rfl

/-- Room phase of a close on a connection bound to a truthy room id and
user id whose room exists: the user's entry is deleted; if the mapping
became empty the room is deleted (no broadcast), otherwise the room keeps
the shrunken mapping and the synthesized `leave_room` loop runs on it. -/
theorem closeRoomPhase_spec (sp : ServerState) (c : Nat) (fails : List Nat)
    (u : Nat) (r : String) (ps : List (Option Nat × Nat))
    (hu : (getConn sp c).userId = some u)
    (hr : (getConn sp c).currentRoomId = some r)
    (hu0 : u ≠ 0) (hr0 : r ≠ "")
    (hroom : mapLookup sp.rooms (some r) = some ps) :
    (mapDelete ps (some u) = [] →
      (closeRoomPhase sp c fails).1.1.rooms = mapDelete sp.rooms (some r) ∧
      (closeRoomPhase sp c fails).1.2 = []) ∧
    (mapDelete ps (some u) ≠ [] →
      (closeRoomPhase sp c fails).1.1.rooms =
        mapSet sp.rooms (some r) (mapDelete ps (some u)) ∧
      (closeRoomPhase sp c fails).1.2 =
        (broadcastLeave
          { sp with rooms := mapSet sp.rooms (some r) (mapDelete ps (some u)) }
          (mapDelete ps (some u)) fails
          (OutMsg.leaveNote (some r) (some u))).1) := by
  have htr : truthyStr (some r) = true := by simp [truthyStr, hr0]
  have htn : truthyNum (some u) = true := by simp [truthyNum, hu0]
  constructor
  · intro hdel
    simp [closeRoomPhase, hr, hu, htr, htn, hroom, hdel]
  · intro hne
    have hlen : ¬ (mapDelete ps (some u)).length = 0 := by
      intro hx
      exact hne (List.length_eq_zero.mp hx)
    simp [closeRoomPhase, hr, hu, htr, htn, hroom, hlen]

/-- Close of a connection bound to truthy `r`/`u` whose room exists:
full description of the room directory afterwards. -/
theorem handleClose_bound_rooms (s : ServerState) (c : Nat) (fails : List Nat)
    (u : Nat) (r : String) (ps : List (Option Nat × Nat))
    (hu : (getConn s c).userId = some u)
    (hr : (getConn s c).currentRoomId = some r)
    (hu0 : u ≠ 0) (hr0 : r ≠ "")
    (hroom : mapLookup s.rooms (some r) = some ps) :
    (mapDelete ps (some u) = [] →
      mapLookup (handleClose s c fails).1.rooms (some r) = none) ∧
    (mapDelete ps (some u) ≠ [] →
      mapLookup (handleClose s c fails).1.rooms (some r) =
        some (mapDelete ps (some u))) := by
  have hup : (getConn (closePrelude s c) c).userId = some u := by
    rw [getConn_closePrelude_self]
    exact hu
  have hrp : (getConn (closePrelude s c) c).currentRoomId = some r := by
    rw [getConn_closePrelude_self]
    exact hr
  have hroomp : mapLookup (closePrelude s c).rooms (some r) = some ps := hroom
  have hspec := closeRoomPhase_spec (closePrelude s c) c fails u r ps
    hup hrp hu0 hr0 hroomp
  constructor
  · intro hdel
    rw [handleClose_rooms, (hspec.1 hdel).1]
    exact mapLookup_mapDelete_self _ _
  · intro hne
    rw [handleClose_rooms, (hspec.2 hne).1]
    exact mapLookup_mapSet_self _ _ _

/-- Close of a bound connection, when every remaining participant is some
other open connection whose send succeeds: every remaining participant is
sent the synthesized `leave_room` naming the departed bound user id, in
participant-map order. -/
theorem handleClose_bound_outputs (s : ServerState) (c : Nat) (fails : List Nat)
    (u : Nat) (r : String) (ps : List (Option Nat × Nat))
    (hu : (getConn s c).userId = some u)
    (hr : (getConn s c).currentRoomId = some r)
    (hu0 : u ≠ 0) (hr0 : r ≠ "")
    (hroom : mapLookup s.rooms (some r) = some ps)
    (hrecip : ∀ p ∈ mapDelete ps (some u), p.2 ≠ c ∧ connOpen s p.2 = true)
    (hfails : ∀ p ∈ mapDelete ps (some u), p.2 ∉ fails)
    (hne : mapDelete ps (some u) ≠ []) :
    (handleClose s c fails).2 = (mapDelete ps (some u)).map
      (fun p => Out.sent p.1 p.2 (OutMsg.leaveNote (some r) (some u))) := by
  have hup : (getConn (closePrelude s c) c).userId = some u := by
    rw [getConn_closePrelude_self]
    exact hu
  have hrp : (getConn (closePrelude s c) c).currentRoomId = some r := by
    rw [getConn_closePrelude_self]
    exact hr
  have hspec := closeRoomPhase_spec (closePrelude s c) c fails u r ps
    hup hrp hu0 hr0 hroom
  rw [handleClose_snd, (hspec.2 hne).2]
  have s4conns : ({ closePrelude s c with
      rooms := mapSet (closePrelude s c).rooms (some r) (mapDelete ps (some u)) } :
        ServerState).conns = mapSet s.conns c
      { getConn s c with readyStateOpen := false, pingIntervalActive := false } := rfl
  have hopen4 : ∀ p ∈ mapDelete ps (some u),
      connOpen { closePrelude s c with
        rooms := mapSet (closePrelude s c).rooms (some r) (mapDelete ps (some u)) } p.2 = true := by
    intro p hp
    rcases hrecip p hp with ⟨hne2, hop⟩
    rw [connOpen, getConn_of_conns_set_ne _ s c p.2 _ s4conns hne2]
    exact hop
  rw [broadcastLeave_ok _ _ _ _ (by
    intro k t hmem
    exact hfails (k, t) hmem)]
  have hfe : List.filter (fun p => connOpen { closePrelude s c with
      rooms := mapSet (closePrelude s c).rooms (some r) (mapDelete ps (some u)) } p.2)
      (mapDelete ps (some u)) = mapDelete ps (some u) :=
    List.filter_eq_self.mpr hopen4
  rw [hfe]

/-! ## Claim C2: effect of a close on the departed room -/

/-- C2 (amended): when the connection of a bound participant closes —
with a NONZERO bound user id and NONEMPTY bound room id (a zero id or
empty room id is falsy in the handler's `if (currentRoomId && userId)`
guard, which then skips the whole room-leave step: see the
counterexample) — the user id's entry is removed from the room's
participant mapping and the connection is removed from the connection
registry (with its heartbeat timer cancelled); if the room had exactly
one participant the room is deleted from the directory; if it had more,
exactly N−1 entries remain and every remaining participant — all assumed
here to be open sockets of other connections whose sends succeed, since
the loop skips non-open sockets and has no try/catch — is sent a
`leave_room` carrying the room id and the departed user id. -/
theorem spec_C2_close_removes_participant (s : ServerState) (c : Nat)
    (u : Nat) (r : String) (ps : List (Option Nat × Nat)) (fails : List Nat)
    (hu : (getConn s c).userId = some u)
    (hr : (getConn s c).currentRoomId = some r)
    (hu0 : u ≠ 0) (hr0 : r ≠ "")
    (hroom : mapLookup s.rooms (some r) = some ps)
    (hmem : (some u, c) ∈ ps)
    (hnd : (ps.map Prod.fst).Nodup)
    (hrecip : ∀ p ∈ mapDelete ps (some u), p.2 ≠ c ∧ connOpen s p.2 = true)
    (hfails : ∀ p ∈ mapDelete ps (some u), p.2 ∉ fails) :
    c ∉ (stepState s (Event.closeEv c fails)).connections ∧
    (getConn (stepState s (Event.closeEv c fails)) c).pingIntervalActive = false ∧
    mapLookup (mapDelete ps (some u)) (some u) = none ∧
    (mapDelete ps (some u)).length + 1 = ps.length ∧
    (ps.length = 1 →
      mapLookup (stepState s (Event.closeEv c fails)).rooms (some r) = none) ∧
    (1 < ps.length →
      mapLookup (stepState s (Event.closeEv c fails)).rooms (some r) =
        some (mapDelete ps (some u)) ∧
      stepOut s (Event.closeEv c fails) = (mapDelete ps (some u)).map
        (fun p => Out.sent p.1 p.2 (OutMsg.leaveNote (some r) (some u)))) := by
  have hst : stepState s (Event.closeEv c fails) = (handleClose s c fails).1 := rfl
  have hout : stepOut s (Event.closeEv c fails) = (handleClose s c fails).2 := rfl
  have hlen : (mapDelete ps (some u)).length + 1 = ps.length :=
    mapDelete_length ps (some u) hnd (List.mem_map_of_mem Prod.fst hmem)
  have hbr := handleClose_bound_rooms s c fails u r ps hu hr hu0 hr0 hroom
  refine ⟨?_, ?_, mapLookup_mapDelete_self _ _, hlen, ?_, ?_⟩
  · rw [hst, handleClose_connections]
    intro hmemc
    have h2 := (List.mem_filter.mp hmemc).2
    simp at h2
  · rw [hst, getConn_of_conns_set_self (handleClose s c fails).1 s c _
      (handleClose_conns s c fails)]
  · intro h1
    have hdel : mapDelete ps (some u) = [] := by
      rw [h1] at hlen
      exact List.length_eq_zero.mp (by omega)
    rw [hst]
    exact hbr.1 hdel
  · intro h1
    have hdel : mapDelete ps (some u) ≠ [] := by
      intro hx
      rw [hx] at hlen
      simp at hlen
      omega
    refine ⟨by rw [hst]; exact hbr.2 hdel, ?_⟩
    rw [hout]
    exact handleClose_bound_outputs s c fails u r ps hu hr hu0 hr0 hroom
      hrecip hfails hdel

/-- Witness for C2: room `r` holds users 1 and 2; user 1's connection
closes; user 2 remains alone and is notified. -/
theorem spec_C2_witness :
    1 ∉ (stepState
      { rooms := [(some "r", [(some 1, 1), (some 2, 2)])]
        connections := [1, 2]
        conns := [(1, { userId := some 1, currentRoomId := some "r"
                        pingIntervalActive := true, readyStateOpen := true }),
                  (2, { userId := some 2, currentRoomId := some "r"
                        pingIntervalActive := true, readyStateOpen := true })]
        statsConnections := 2, statsRooms := 1 } (Event.closeEv 1 [])).connections ∧
    (getConn (stepState
      { rooms := [(some "r", [(some 1, 1), (some 2, 2)])]
        connections := [1, 2]
        conns := [(1, { userId := some 1, currentRoomId := some "r"
                        pingIntervalActive := true, readyStateOpen := true }),
                  (2, { userId := some 2, currentRoomId := some "r"
                        pingIntervalActive := true, readyStateOpen := true })]
        statsConnections := 2, statsRooms := 1 } (Event.closeEv 1 [])) 1).pingIntervalActive = false ∧
    mapLookup (mapDelete [(some 1, 1), (some 2, 2)] (some 1)) (some 1) = none ∧
    (mapDelete [(some 1, 1), (some 2, 2)] (some 1)).length + 1 =
      ([(some 1, 1), (some 2, 2)] : List (Option Nat × Nat)).length ∧
    (([(some 1, 1), (some 2, 2)] : List (Option Nat × Nat)).length = 1 →
      mapLookup (stepState
        { rooms := [(some "r", [(some 1, 1), (some 2, 2)])]
          connections := [1, 2]
          conns := [(1, { userId := some 1, currentRoomId := some "r"
                          pingIntervalActive := true, readyStateOpen := true }),
                    (2, { userId := some 2, currentRoomId := some "r"
                          pingIntervalActive := true, readyStateOpen := true })]
          statsConnections := 2, statsRooms := 1 } (Event.closeEv 1 [])).rooms (some "r") = none) ∧
    (1 < ([(some 1, 1), (some 2, 2)] : List (Option Nat × Nat)).length →
      mapLookup (stepState
        { rooms := [(some "r", [(some 1, 1), (some 2, 2)])]
          connections := [1, 2]
          conns := [(1, { userId := some 1, currentRoomId := some "r"
                          pingIntervalActive := true, readyStateOpen := true }),
                    (2, { userId := some 2, currentRoomId := some "r"
                          pingIntervalActive := true, readyStateOpen := true })]
          statsConnections := 2, statsRooms := 1 } (Event.closeEv 1 [])).rooms (some "r") =
        some (mapDelete [(some 1, 1), (some 2, 2)] (some 1)) ∧
      stepOut
        { rooms := [(some "r", [(some 1, 1), (some 2, 2)])]
          connections := [1, 2]
          conns := [(1, { userId := some 1, currentRoomId := some "r"
                          pingIntervalActive := true, readyStateOpen := true }),
                    (2, { userId := some 2, currentRoomId := some "r"
                          pingIntervalActive := true, readyStateOpen := true })]
          statsConnections := 2, statsRooms := 1 } (Event.closeEv 1 []) =
        (mapDelete [(some 1, 1), (some 2, 2)] (some 1)).map
          (fun p => Out.sent p.1 p.2 (OutMsg.leaveNote (some "r") (some 1)))) :=
  spec_C2_close_removes_participant
    { rooms := [(some "r", [(some 1, 1), (some 2, 2)])]
      connections := [1, 2]
      conns := [(1, { userId := some 1, currentRoomId := some "r"
                      pingIntervalActive := true, readyStateOpen := true }),
                (2, { userId := some 2, currentRoomId := some "r"
                      pingIntervalActive := true, readyStateOpen := true })]
      statsConnections := 2, statsRooms := 1 }
    1 1 "r" [(some 1, 1), (some 2, 2)] []
    (by decide) (by decide) (by decide) (by decide) (by decide) (by decide)
    (by decide) (by decide) (by decide)

/-- Counterexample to C2 as stated: user id 0 is a bound participant (it
joined room `r` and is its sole participant), but `0` is falsy in
JavaScript, so the close handler's `if (currentRoomId && userId)` guard
skips the leave: the entry is NOT removed, the room is NOT deleted, and
nothing is broadcast. -/
theorem spec_C2_counterexample :
    (stepState (run [Event.connect 1,
        Event.message 1 (ClientFrame.joinRoom (some "r") (some 0) none) []])
      (Event.closeEv 1 [])).rooms = [(some "r", [(some 0, 1)])] ∧
    stepOut (run [Event.connect 1,
        Event.message 1 (ClientFrame.joinRoom (some "r") (some 0) none) []])
      (Event.closeEv 1 []) = [] := by
  decide

/-! ## Claim C10: removal on close is keyed by the binding -/

/-- C10 (amended, for a nonzero bound user id and nonempty bound room id —
the falsy values skip the leave, see the counterexample): when `c1`,
bound to room `r` and user `u`, closes while `r`'s mapping stores a
DIFFERENT connection `c2` under `u` (because `c2` joined later as `u`),
the close handling still removes the entry for `u` — i.e. `c2`'s
reference — deletes `r` if the mapping thereby becomes empty, and
otherwise broadcasts `leave_room` naming `u` to the remaining (open,
successfully sent-to) participants; `c2`'s own registry entry and socket
state are untouched.  Removal is keyed solely by the closing connection's
bound ids, never by comparing the stored reference with the closing
connection. -/
theorem spec_C10_close_keyed_by_binding (s : ServerState) (c1 c2 : Nat)
    (u : Nat) (r : String) (ps : List (Option Nat × Nat)) (fails : List Nat)
    (hu : (getConn s c1).userId = some u)
    (hr : (getConn s c1).currentRoomId = some r)
    (hu0 : u ≠ 0) (hr0 : r ≠ "")
    (hroom : mapLookup s.rooms (some r) = some ps)
    (_hstale : (some u, c2) ∈ ps)
    (hne : c2 ≠ c1)
    (hrecip : ∀ p ∈ mapDelete ps (some u), p.2 ≠ c1 ∧ connOpen s p.2 = true)
    (hfails : ∀ p ∈ mapDelete ps (some u), p.2 ∉ fails) :
    mapLookup (mapDelete ps (some u)) (some u) = none ∧
    getConn (stepState s (Event.closeEv c1 fails)) c2 = getConn s c2 ∧
    (mapDelete ps (some u) = [] →
      mapLookup (stepState s (Event.closeEv c1 fails)).rooms (some r) = none) ∧
    (mapDelete ps (some u) ≠ [] →
      mapLookup (stepState s (Event.closeEv c1 fails)).rooms (some r) =
        some (mapDelete ps (some u)) ∧
      stepOut s (Event.closeEv c1 fails) = (mapDelete ps (some u)).map
        (fun p => Out.sent p.1 p.2 (OutMsg.leaveNote (some r) (some u)))) := by
  have hst : stepState s (Event.closeEv c1 fails) = (handleClose s c1 fails).1 := rfl
  have hout : stepOut s (Event.closeEv c1 fails) = (handleClose s c1 fails).2 := rfl
  have hbr := handleClose_bound_rooms s c1 fails u r ps hu hr hu0 hr0 hroom
  refine ⟨mapLookup_mapDelete_self _ _, ?_, ?_, ?_⟩
  · rw [hst]
    exact getConn_of_conns_set_ne (handleClose s c1 fails).1 s c1 c2 _
      (handleClose_conns s c1 fails) hne
  · intro hdel
    rw [hst]
    exact hbr.1 hdel
  · intro hdel
    refine ⟨by rw [hst]; exact hbr.2 hdel, ?_⟩
    rw [hout]
    exact handleClose_bound_outputs s c1 fails u r ps hu hr hu0 hr0 hroom
      hrecip hfails hdel

/-- Witness for C10: connection 1 is bound to room `r` as user 5, but the
mapping stores connection 2 under user 5 (a later duplicate join);
connection 1's close still removes that entry and notifies user 6. -/
theorem spec_C10_witness :
    mapLookup (mapDelete [(some 5, 2), (some 6, 3)] (some 5)) (some 5) = none ∧
    getConn (stepState
      { rooms := [(some "r", [(some 5, 2), (some 6, 3)])]
        connections := [1, 2, 3]
        conns := [(1, { userId := some 5, currentRoomId := some "r"
                        pingIntervalActive := true, readyStateOpen := true }),
                  (2, { userId := some 5, currentRoomId := some "r"
                        pingIntervalActive := true, readyStateOpen := true }),
                  (3, { userId := some 6, currentRoomId := some "r"
                        pingIntervalActive := true, readyStateOpen := true })]
        statsConnections := 3, statsRooms := 1 } (Event.closeEv 1 [])) 2 =
      getConn
      { rooms := [(some "r", [(some 5, 2), (some 6, 3)])]
        connections := [1, 2, 3]
        conns := [(1, { userId := some 5, currentRoomId := some "r"
                        pingIntervalActive := true, readyStateOpen := true }),
                  (2, { userId := some 5, currentRoomId := some "r"
                        pingIntervalActive := true, readyStateOpen := true }),
                  (3, { userId := some 6, currentRoomId := some "r"
                        pingIntervalActive := true, readyStateOpen := true })]
        statsConnections := 3, statsRooms := 1 } 2 ∧
    (mapDelete [(some 5, 2), (some 6, 3)] (some 5) = [] →
      mapLookup (stepState
        { rooms := [(some "r", [(some 5, 2), (some 6, 3)])]
          connections := [1, 2, 3]
          conns := [(1, { userId := some 5, currentRoomId := some "r"
                          pingIntervalActive := true, readyStateOpen := true }),
                    (2, { userId := some 5, currentRoomId := some "r"
                          pingIntervalActive := true, readyStateOpen := true }),
                    (3, { userId := some 6, currentRoomId := some "r"
                          pingIntervalActive := true, readyStateOpen := true })]
          statsConnections := 3, statsRooms := 1 } (Event.closeEv 1 [])).rooms (some "r") = none) ∧
    (mapDelete [(some 5, 2), (some 6, 3)] (some 5) ≠ [] →
      mapLookup (stepState
        { rooms := [(some "r", [(some 5, 2), (some 6, 3)])]
          connections := [1, 2, 3]
          conns := [(1, { userId := some 5, currentRoomId := some "r"
                          pingIntervalActive := true, readyStateOpen := true }),
                    (2, { userId := some 5, currentRoomId := some "r"
                          pingIntervalActive := true, readyStateOpen := true }),
                    (3, { userId := some 6, currentRoomId := some "r"
                          pingIntervalActive := true, readyStateOpen := true })]
          statsConnections := 3, statsRooms := 1 } (Event.closeEv 1 [])).rooms (some "r") =
        some (mapDelete [(some 5, 2), (some 6, 3)] (some 5)) ∧
      stepOut
        { rooms := [(some "r", [(some 5, 2), (some 6, 3)])]
          connections := [1, 2, 3]
          conns := [(1, { userId := some 5, currentRoomId := some "r"
                          pingIntervalActive := true, readyStateOpen := true }),
                    (2, { userId := some 5, currentRoomId := some "r"
                          pingIntervalActive := true, readyStateOpen := true }),
                    (3, { userId := some 6, currentRoomId := some "r"
                          pingIntervalActive := true, readyStateOpen := true })]
          statsConnections := 3, statsRooms := 1 } (Event.closeEv 1 []) =
        (mapDelete [(some 5, 2), (some 6, 3)] (some 5)).map
          (fun p => Out.sent p.1 p.2 (OutMsg.leaveNote (some "r") (some 5)))) :=
  spec_C10_close_keyed_by_binding
    { rooms := [(some "r", [(some 5, 2), (some 6, 3)])]
      connections := [1, 2, 3]
      conns := [(1, { userId := some 5, currentRoomId := some "r"
                      pingIntervalActive := true, readyStateOpen := true }),
                (2, { userId := some 5, currentRoomId := some "r"
                      pingIntervalActive := true, readyStateOpen := true }),
                (3, { userId := some 6, currentRoomId := some "r"
                      pingIntervalActive := true, readyStateOpen := true })]
      statsConnections := 3, statsRooms := 1 }
    1 2 5 "r" [(some 5, 2), (some 6, 3)] []
    (by decide) (by decide) (by decide) (by decide) (by decide) (by decide)
    (by decide) (by decide) (by decide)

/-- Counterexample to C10 as stated: user id 0 — connection 1 is bound to
room `r` as user 0, connection 2 later joined as user 0 (so the mapping
stores connection 2); when connection 1 closes, the falsy `0` makes the
close handler skip the leave entirely: the entry for user 0 is NOT
removed and no `leave_room` is broadcast. -/
theorem spec_C10_counterexample :
    (stepState (run [Event.connect 1,
        Event.message 1 (ClientFrame.joinRoom (some "r") (some 0) none) [],
        Event.connect 2,
        Event.message 2 (ClientFrame.joinRoom (some "r") (some 0) none) []])
      (Event.closeEv 1 [])).rooms = [(some "r", [(some 0, 2)])] ∧
    stepOut (run [Event.connect 1,
        Event.message 1 (ClientFrame.joinRoom (some "r") (some 0) none) [],
        Event.connect 2,
        Event.message 2 (ClientFrame.joinRoom (some "r") (some 0) none) []])
      (Event.closeEv 1 []) = [] := by
  decide

/-! ## Claim C5: per-recipient delivery independence -/

/-- On a bound connection whose room exists, the update fan-out is exactly
the caught-per-recipient broadcast loop over the room, excluding the
sender's bound user id. -/
theorem handleUpdate_snd_bound (s : ServerState) (c : Nat) (f : ClientFrame)
    (fails : List Nat) (u : Nat) (r : String) (ps : List (Option Nat × Nat))
    (hu : (getConn s c).userId = some u)
    (hr : (getConn s c).currentRoomId = some r)
    (hu0 : u ≠ 0) (hr0 : r ≠ "")
    (hroom : mapLookup s.rooms (some r) = some ps) :
    (handleUpdate s c f fails).2 =
      broadcastCaught s ps (some u) fails (OutMsg.echoed f) := by
  have htr : truthyStr (some r) = true := by simp [truthyStr, hr0]
  have htn : truthyNum (some u) = true := by simp [truthyNum, hu0]
  simp [handleUpdate, hu, hr, htr, htn, hroom]

/-- C5 (amended): for the `code_update` (and identically `cursor_update`)
fan-out, delivery to each recipient is attempted independently — every
eligible recipient (entry key other than the sender's bound user id, open
socket) whose own send succeeds receives the verbatim payload no matter
which other sends fail; a failing eligible recipient is recorded as a
failed send without aborting the loop; the relay state is unchanged and
every output is a loop send (in particular, no error is escalated to the
sender).  For the `join_room` notification and the synthesized
`leave_room` broadcast this independence does NOT hold: those loops have
no per-recipient try/catch, so one failing send aborts the remaining
deliveries, and for `join_room` the escaped exception additionally sends
an error object to the joining sender (see the counterexample). -/
theorem spec_C5_update_fanout_independent (s : ServerState) (c : Nat)
    (fails : List Nat) (rid : Option String) (uid : Option Nat)
    (cont : Option String) (u : Nat) (r : String)
    (ps : List (Option Nat × Nat))
    (hu : (getConn s c).userId = some u)
    (hr : (getConn s c).currentRoomId = some r)
    (hu0 : u ≠ 0) (hr0 : r ≠ "")
    (hroom : mapLookup s.rooms (some r) = some ps) :
    stepState s (Event.message c (ClientFrame.codeUpdate rid uid cont) fails) = s ∧
    (∀ p ∈ ps, p.1 ≠ some u → connOpen s p.2 = true → p.2 ∉ fails →
      Out.sent p.1 p.2 (OutMsg.echoed (ClientFrame.codeUpdate rid uid cont)) ∈
        stepOut s (Event.message c (ClientFrame.codeUpdate rid uid cont) fails)) ∧
    (∀ p ∈ ps, p.1 ≠ some u → connOpen s p.2 = true → p.2 ∈ fails →
      Out.sendFailed p.1 p.2 (OutMsg.echoed (ClientFrame.codeUpdate rid uid cont)) ∈
        stepOut s (Event.message c (ClientFrame.codeUpdate rid uid cont) fails)) ∧
    (∀ o ∈ stepOut s (Event.message c (ClientFrame.codeUpdate rid uid cont) fails),
      ∃ k t, (o = Out.sent k t (OutMsg.echoed (ClientFrame.codeUpdate rid uid cont)) ∨
        o = Out.sendFailed k t (OutMsg.echoed (ClientFrame.codeUpdate rid uid cont))) ∧
        k ≠ some u) := by
  have hsnd : stepOut s (Event.message c (ClientFrame.codeUpdate rid uid cont) fails) =
      broadcastCaught s ps (some u) fails
        (OutMsg.echoed (ClientFrame.codeUpdate rid uid cont)) := by
    rw [stepOut, step, handleMessage]
    exact handleUpdate_snd_bound s c _ fails u r ps hu hr hu0 hr0 hroom
  refine ⟨?_, ?_, ?_, ?_⟩
  · rw [stepState, step, handleMessage]
    exact handleUpdate_fst s c _ fails
  · intro p hp h1 h2 h3
    rw [hsnd]
    exact broadcastCaught_delivers s ps (some u) fails _ p.1 p.2 hp h1 h2 h3
  · intro p hp h1 h2 h3
    rw [hsnd]
    exact broadcastCaught_reports s ps (some u) fails _ p.1 p.2 hp h1 h2 h3
  · intro o ho
    rw [hsnd] at ho
    rcases broadcastCaught_mem s ps (some u) fails _ o ho with ⟨k, t, h1, h2, _, _⟩
    exact ⟨k, t, h1, h2⟩

/-- A concrete three-user state used to witness C5: users 2 and 3 occupy
room `r`; connection 1 is bound to `r` as user 1. -/
def c5State : ServerState :=
  { rooms := [(some "r", [(some 2, 2), (some 3, 3)])]
    connections := [1, 2, 3]
    conns := [(1, { userId := some 1, currentRoomId := some "r"
                    pingIntervalActive := true, readyStateOpen := true }),
              (2, { userId := some 2, currentRoomId := some "r"
                    pingIntervalActive := true, readyStateOpen := true }),
              (3, { userId := some 3, currentRoomId := some "r"
                    pingIntervalActive := true, readyStateOpen := true })]
    statsConnections := 3, statsRooms := 1 }

/-- Witness for C5: user 1 updates the room while user 2's send fails;
user 3 still receives the payload and the state is unchanged. -/
theorem spec_C5_witness :
    stepState c5State
      (Event.message 1 (ClientFrame.codeUpdate (some "r") (some 1) (some "x=1")) [2]) =
      c5State ∧
    (∀ p ∈ ([(some 2, 2), (some 3, 3)] : List (Option Nat × Nat)),
      p.1 ≠ some 1 → connOpen c5State p.2 = true → p.2 ∉ ([2] : List Nat) →
      Out.sent p.1 p.2
          (OutMsg.echoed (ClientFrame.codeUpdate (some "r") (some 1) (some "x=1"))) ∈
        stepOut c5State
          (Event.message 1 (ClientFrame.codeUpdate (some "r") (some 1) (some "x=1")) [2])) ∧
    (∀ p ∈ ([(some 2, 2), (some 3, 3)] : List (Option Nat × Nat)),
      p.1 ≠ some 1 → connOpen c5State p.2 = true → p.2 ∈ ([2] : List Nat) →
      Out.sendFailed p.1 p.2
          (OutMsg.echoed (ClientFrame.codeUpdate (some "r") (some 1) (some "x=1"))) ∈
        stepOut c5State
          (Event.message 1 (ClientFrame.codeUpdate (some "r") (some 1) (some "x=1")) [2])) ∧
    (∀ o ∈ stepOut c5State
        (Event.message 1 (ClientFrame.codeUpdate (some "r") (some 1) (some "x=1")) [2]),
      ∃ k t,
        (o = Out.sent k t
            (OutMsg.echoed (ClientFrame.codeUpdate (some "r") (some 1) (some "x=1"))) ∨
          o = Out.sendFailed k t
            (OutMsg.echoed (ClientFrame.codeUpdate (some "r") (some 1) (some "x=1")))) ∧
        k ≠ some 1) :=
  spec_C5_update_fanout_independent c5State
    1 [2] (some "r") (some 1) (some "x=1") 1 "r" [(some 2, 2), (some 3, 3)]
    (by decide) (by decide) (by decide) (by decide) (by decide)

/-- Counterexample to C5 as stated: in the `join_room` notification loop
(one of the two broadcast sites the claim cites), connection 1's failing
send aborts the loop before connection 2 — an open, non-failing remaining
participant — is ever attempted, and the escaped exception makes the
handler send an error object to the joining sender: one recipient's
failure both blocked another recipient's delivery and affected the
sender. -/
theorem spec_C5_counterexample :
    stepOut
      (run [Event.connect 1, Event.connect 2, Event.connect 3,
            Event.message 1 (ClientFrame.joinRoom (some "r") (some 1) none) [],
            Event.message 2 (ClientFrame.joinRoom (some "r") (some 2) none) []])
      (Event.message 3 (ClientFrame.joinRoom (some "r") (some 3) (some "carol")) [1]) =
      [Out.sendFailed (some 1) 1 (OutMsg.joinNote (some "r") (some 3) (some "carol")),
       Out.sentDirect 3 OutMsg.errorNote] := by
  decide

/-! ## Claim C6: transport error versus close -/

/-- C6 (amended): the transport-error handler performs only the registry
deregistration and heartbeat-timer cancellation — it does NOT perform the
room leave or the synthesized `leave_room` broadcast (see the
counterexample); those happen in the close handler, which the transport
runs when the errored socket subsequently closes.  The cleanup operations
are idempotent rather than run-exactly-once: an error event followed by
the close event yields exactly the same state and the same sends as the
close event alone (the timer-cancelling assignment is executed by both
handlers, harmlessly). -/
theorem spec_C6_error_cleanup_via_close (s : ServerState) (c : Nat)
    (fails : List Nat) :
    (stepState s (Event.errorEv c)).rooms = s.rooms ∧
    stepOut s (Event.errorEv c) = [] ∧
    (stepState s (Event.errorEv c)).connections =
      s.connections.filter (fun x => decide (x ≠ c)) ∧
    (getConn (stepState s (Event.errorEv c)) c).pingIntervalActive = false ∧
    stepState (stepState s (Event.errorEv c)) (Event.closeEv c fails) =
      stepState s (Event.closeEv c fails) ∧
    stepOut (stepState s (Event.errorEv c)) (Event.closeEv c fails) =
      stepOut s (Event.closeEv c fails) := by
  have hg : getConn (stepState s (Event.errorEv c)) c =
      { getConn s c with pingIntervalActive := false } :=
    getConn_of_conns_set_self _ s c _ rfl
  have hpre : closePrelude (stepState s (Event.errorEv c)) c = closePrelude s c := by
    simp only [closePrelude]
    congr 1
    · exact filter_idem _ _
    · rw [hg]
      show mapSet (mapSet s.conns c { getConn s c with pingIntervalActive := false }) c _ = _
      rw [mapSet_mapSet]
    · exact congrArg List.length (filter_idem _ _)
  have hhc : handleClose (stepState s (Event.errorEv c)) c fails =
      handleClose s c fails := by
    simp only [handleClose]
    rw [hpre]
  exact ⟨rfl, rfl, rfl, by rw [hg], congrArg Prod.fst hhc, congrArg Prod.snd hhc⟩

/-- Counterexample to C6 as stated: connections 1 and 2 share room `r`;
a transport error event on connection 1 leaves connection 1's entry in
the room's mapping (no room leave) and broadcasts nothing (no synthesized
`leave_room`), unlike a close event. -/
theorem spec_C6_counterexample :
    (stepState (run [Event.connect 1, Event.connect 2,
        Event.message 1 (ClientFrame.joinRoom (some "r") (some 1) none) [],
        Event.message 2 (ClientFrame.joinRoom (some "r") (some 2) none) []])
      (Event.errorEv 1)).rooms = [(some "r", [(some 1, 1), (some 2, 2)])] ∧
    stepOut (run [Event.connect 1, Event.connect 2,
        Event.message 1 (ClientFrame.joinRoom (some "r") (some 1) none) [],
        Event.message 2 (ClientFrame.joinRoom (some "r") (some 2) none) []])
      (Event.errorEv 1) = [] := by
  decide

example : run [Event.connect 1] =
    { rooms := [], connections := [1]
      conns := [(1, { userId := none, currentRoomId := none
                      pingIntervalActive := true, readyStateOpen := true })]
      statsConnections := 1, statsRooms := 0 } := by decide

example :
    (run [Event.connect 1,
          Event.message 1 (ClientFrame.joinRoom (some "r1") (some 7) (some "ann")) []]).rooms
      = [(some "r1", [(some 7, 1)])] := by decide
